import Mathlib

/-!
# IONOS Cloud builder steps: a shallow embedding

The two steps of the builder, `stepCreateServer` (step_create_server.go) and
`stepTakeSnapshot` (step_take_snapshot.go), are embedded as functions in a small
state-and-trace monad `Go`.  A `World` holds what a step can observe and
change: the state bag, the trace of outgoing calls and the lines shown to the
operator.  What lies outside the two files (the cloud SDK client, the guest
communicator, and the Go library functions `strings.ToLower`,
`strings.EqualFold` and `json.Unmarshal`) is an environment `Env` of answer
tables; the functions of the two files are embedded line by line over it.

Conventions.
* A Go pointer is an `Option`; dereferencing `none` is a runtime panic.
* A Go `error` is an `Option String`: `none` is `nil`, `some m` has `Error() = m`.
* The `int` loop counters are exact integers: along every run of a polling
  loop the counter stays at most one above the retry budget, so it does not
  wrap around for any budget below the largest `int`. The `int64` products
  printed in messages wrap around (`wrapInt64`).
* `time.Sleep` has no observable effect in the embedding.
* Loops over a retry budget are defined by recursion on fuel; the fuel the
  functions pass is shown to suffice (`waitTillProvisioned_total` and its
  siblings), so `Res.outOfFuel` never is the result of a function of the
  two files.
-/

namespace Ionoscloud

/-! ## Go runtime -/

/-- Go `error`: `none` is `nil`, `some m` is an error whose text is `m`. -/
abbrev GoError := Option String

/-- How a call of a Go function ends: it returns, it panics, or the embedding
ran out of loop fuel before the function returned. -/
inductive Res (α : Type) where
  | ret (a : α)
  | panic (reason : String)
  | outOfFuel
deriving DecidableEq, Repr

/-! ## SDK data (sdk-go/v6), restricted to the fields the two steps touch -/

/-- The SDK's `APIResponse`: status code, message, and the `Location` header
(`Header.Get("Location")`, empty when the header is absent). -/
structure APIResponse where
  StatusCode : Int
  Message : String
  Location : String
deriving DecidableEq, Repr

structure RequestStatusMetadata where
  Status : Option String
  Message : Option String
deriving DecidableEq, Repr

structure RequestStatus where
  Metadata : Option RequestStatusMetadata
deriving DecidableEq, Repr

structure DatacenterProperties where
  Name : Option String
  Location : Option String
deriving DecidableEq, Repr

structure Datacenter where
  Id : Option String
  Properties : Option DatacenterProperties
deriving DecidableEq, Repr

/-- Volume properties; `Size` is a float32 carried as an uninterpreted number. -/
structure VolumeProperties where
  Type_ : Option String
  Size : Option Nat
  Name : Option String
  ImageAlias : Option String
  Image : Option String
  SshKeys : Option (List String)
  ImagePassword : Option String
  LicenceType : Option String
deriving DecidableEq, Repr

structure Volume where
  Id : Option String
  Properties : Option VolumeProperties
deriving DecidableEq, Repr

structure NicProperties where
  Name : Option String
  Dhcp : Option Bool
  Ips : Option (List String)
deriving DecidableEq, Repr

structure Nic where
  Id : Option String
  Properties : Option NicProperties
deriving DecidableEq, Repr

structure AttachedVolumes where
  Items : Option (List Volume)
deriving DecidableEq, Repr

structure Nics where
  Items : Option (List Nic)
deriving DecidableEq, Repr

structure ResourceReference where
  Id : Option String
deriving DecidableEq, Repr

structure ServerProperties where
  Name : Option String
  Ram : Option Int
  Cores : Option Int
  BootVolume : Option ResourceReference
deriving DecidableEq, Repr

structure ServerEntities where
  Volumes : Option AttachedVolumes
  Nics : Option Nics
deriving DecidableEq, Repr

structure Server where
  Id : Option String
  Properties : Option ServerProperties
  Entities : Option ServerEntities
deriving DecidableEq, Repr

structure LanPropertiesPost where
  Public : Option Bool
  Name : Option String
deriving DecidableEq, Repr

structure LanPost where
  Properties : Option LanPropertiesPost
deriving DecidableEq, Repr

structure Lan where
  Id : Option String
deriving DecidableEq, Repr

structure ImageProperties where
  Name : Option String
  ImageType : Option String
  Location : Option String
  Public : Option Bool
deriving DecidableEq, Repr

structure Image where
  Id : Option String
  Properties : Option ImageProperties
deriving DecidableEq, Repr

structure Images where
  Items : Option (List Image)
deriving DecidableEq, Repr

structure LocationProperties where
  ImageAliases : Option (List String)
deriving DecidableEq, Repr

structure Location where
  Properties : Option LocationProperties
deriving DecidableEq, Repr

structure Locations where
  Items : Option (List Location)
deriving DecidableEq, Repr

structure SnapshotMetadata where
  State : Option String
deriving DecidableEq, Repr

structure Snapshot where
  Id : Option String
  Metadata : Option SnapshotMetadata
deriving DecidableEq, Repr

/-! ## Builder configuration -/

/-- Modelled from the spec: the communicator part of the builder configuration
(its declaration, in config.go, is not among the sources): the SSH public key
and the optional SSH/image password. -/
structure CommConfig where
  SSHPublicKey : String
  SSHPassword : String
deriving DecidableEq, Repr

/-- Modelled from the spec: the builder configuration `Config` (its
declaration, in config.go, is not among the sources), with the options the two
steps read: image name or alias, snapshot/resource base name, disk size and
type, core count, memory size, retry-count override and target region. The
disk size is a float32 carried as an uninterpreted number. -/
structure Config where
  Comm : CommConfig
  Image : String
  SnapshotName : String
  DiskSize : Nat
  DiskType : String
  Cores : Int
  Ram : Int
  Retries : Int
  Region : String
deriving DecidableEq, Repr

/-! ## Step framework: actions, state bag, UI -/

inductive StepAction where
  | ActionContinue
  | ActionHalt
deriving DecidableEq, Repr

/-- A value stored in the state bag, tagged with its dynamic Go type. -/
inductive Value where
  | string (s : String)
  | stringPtr (p : Option String)
  | config (c : Config)
  | ui
  | communicator
deriving DecidableEq, Repr

/-- The `multistep.StateBag`: the most recent `Put` of a key comes first. -/
abbrev StateBag := List (String × Value)

/-- A line shown to the operator: `ui.Say` or `ui.Error`. -/
inductive UiLine where
  | say (s : String)
  | error (s : String)
deriving DecidableEq, Repr

/-- A call that leaves the process: an API request or a guest command. -/
inductive Call where
  | ImagesGet
  | LocationsFindByRegionId (regionId : String)
  | DatacentersPost
  | DatacentersServersPost (datacenterId : String)
  | DatacentersLansPost (datacenterId : String)
  | DatacentersLansNicsPost (datacenterId lanId : String)
  | DatacentersServersFindById (datacenterId serverId : String)
  | DatacentersDelete (datacenterId : String)
  | GetRequestStatus (path : String)
  | DatacentersVolumesCreateSnapshotPost (datacenterId volumeId : String)
  | SnapshotsFindById (snapshotId : String)
  | DatacentersVolumesFindById (datacenterId volumeId : String)
  | CommunicatorStart (command : String)
deriving DecidableEq, Repr

/-- What a step can observe and change: the state bag, the calls issued so
far (oldest first) and the lines shown to the operator (oldest first). -/
structure World where
  state : StateBag
  calls : List Call
  ui : List UiLine
deriving DecidableEq, Repr

/-- A Go computation over the world. -/
structure Go (α : Type) where
  run : World → Res α × World

def Go.pure {α : Type} (a : α) : Go α :=
  ⟨fun w => (.ret a, w)⟩

def Go.bind {α β : Type} (x : Go α) (f : α → Go β) : Go β :=
  ⟨fun w =>
    match x.run w with
    | (.ret a, w1) => (f a).run w1
    | (.panic r, w1) => (.panic r, w1)
    | (.outOfFuel, w1) => (.outOfFuel, w1)⟩

instance : Monad Go where
  pure := Go.pure
  bind := Go.bind

/-- A runtime panic. -/
def goPanic {α : Type} (reason : String) : Go α :=
  ⟨fun w => (.panic reason, w)⟩

/-- The embedding's loop fuel is used up. -/
def goOutOfFuel {α : Type} : Go α :=
  ⟨fun w => (.outOfFuel, w)⟩

/-- Pointer dereference `*p`. -/
def deref {α : Type} : Option α → Go α
  | some a => Go.pure a
  | none => goPanic "invalid memory address or nil pointer dereference"

/-- Slice indexing `xs[i]`. -/
def index {α : Type} (xs : List α) (i : Nat) : Go α :=
  match xs.get? i with
  | some a => Go.pure a
  | none => goPanic "index out of range"

/-- An outgoing call: it is appended to the trace, and the environment's
answer may depend on how many calls were issued before it. -/
def issue {α : Type} (c : Call) (answer : Nat → α) : Go α :=
  ⟨fun w => (.ret (answer w.calls.length), { w with calls := w.calls ++ [c] })⟩

def uiSay (s : String) : Go Unit :=
  ⟨fun w => (.ret (), { w with ui := w.ui ++ [.say s] })⟩

def uiError (s : String) : Go Unit :=
  ⟨fun w => (.ret (), { w with ui := w.ui ++ [.error s] })⟩

/-- The call `state.Get(key)`: the stored value, or nil. -/
def stateGet (key : String) : Go (Option Value) :=
  ⟨fun w => (.ret (w.state.lookup key), w)⟩

/-- The call `state.Put(key, v)`. -/
def statePut (key : String) (v : Value) : Go Unit :=
  ⟨fun w => (.ret (), { w with state := (key, v) :: w.state })⟩

/-! ## Environment -/

/-- The SDK client as answer tables; the first argument of each entry is the
number of calls issued before this one. -/
structure APIClient where
  ImagesGet : Nat → Images × Option APIResponse × GoError
  LocationsFindByRegionId : Nat → String → Locations × Option APIResponse × GoError
  DatacentersPost : Nat → Datacenter → Datacenter × Option APIResponse × GoError
  DatacentersServersPost : Nat → String → Server → Server × Option APIResponse × GoError
  DatacentersLansPost : Nat → String → LanPost → Lan × Option APIResponse × GoError
  DatacentersLansNicsPost : Nat → String → String → Nic → Nic × Option APIResponse × GoError
  DatacentersServersFindById : Nat → String → String → Server × Option APIResponse × GoError
  DatacentersDelete : Nat → String → Option APIResponse × GoError
  GetRequestStatus : Nat → String → Option RequestStatus × Option APIResponse × GoError
  DatacentersVolumesCreateSnapshotPost : Nat → String → String → Snapshot × Option APIResponse × GoError
  SnapshotsFindById : Nat → String → Snapshot × Option APIResponse × GoError
  DatacentersVolumesFindById : Nat → String → String → Volume × Option APIResponse × GoError

/-- The guest communicator: the error of `Start` and the exit status the
started command ends with. -/
structure Communicator where
  Start : Nat → String → GoError
  ExitStatus : Nat → String → Int

/-- JSON values as `json.Unmarshal` stores them in an `interface{}`. -/
inductive JsonValue where
  | null
  | bool (b : Bool)
  | number (n : Int)
  | string (s : String)
  | array (items : List JsonValue)
  | object (fields : List (String × JsonValue))

set_option linter.dupNamespace false in
structure Message where
  ErrorCode : String
  Message : String
deriving DecidableEq, Repr

structure RestError where
  HttpStatus : Int
  Messages : List Message
deriving DecidableEq, Repr

/-- The environment of the two steps. -/
structure Env where
  client : APIClient
  comm : Communicator
  /-- The library function `strings.ToLower`. -/
  ToLower : String → String
  /-- The library function `strings.EqualFold`. -/
  EqualFold : String → String → Bool
  /-- The call `json.Unmarshal(raw, &restError)` with `restError` a zero `RestError`. -/
  UnmarshalRestError : String → Except String RestError
  /-- The call `json.Unmarshal(raw, &tmp)` with `tmp` a nil `map[string]interface{}`. -/
  UnmarshalMap : String → Except String (List (String × JsonValue))

/-- The library function `strings.Contains(s, substr)`. -/
def Contains (s substr : String) : Bool :=
  s.data.tails.any (fun t => substr.data.isPrefixOf t)

/-! ## step_create_server.go -/

namespace stepCreateServer

/-- Loop of `waitTillProvisioned` (lines 234-247): `i` is the loop counter,
incremented once in the body and once by the loop header. -/
def waitTillProvisioned.loop (env : Env) (path : String) (waitCount : Int) :
    Nat → Int → Go GoError
  | 0, _ => goOutOfFuel
  | fuel + 1, i =>
    if i < waitCount then do
      let (status, _, err) ← issue (.GetRequestStatus path) (fun t => env.client.GetRequestStatus t path)
      match err with
      | some e => pure (some e)
      | none => do
        let st ← deref status
        let md ← deref st.Metadata
        let s ← deref md.Status
        if s = "DONE" then pure none
        else if s = "FAILED" then do
          let m ← deref md.Message
          pure (some m)
        else waitTillProvisioned.loop env path waitCount fuel (i + 1 + 1)
    else pure none

/-- Function `waitTillProvisioned` (lines 229-249). -/
def waitTillProvisioned (env : Env) (path : String) (config : Config) : Go GoError :=
  let waitCount : Int := if config.Retries > 0 then config.Retries else 120
  waitTillProvisioned.loop env path waitCount (waitCount.toNat + 1) 0

/-- Function `checkForErrors` (lines 251-256). -/
def checkForErrors (inst : Option APIResponse) : Go GoError := do
  let r ← deref inst
  if r.StatusCode > 299 then pure (some ("error occurred " ++ r.Message))
  else pure none

/-- Loop of `getImageId` (lines 277-290) over the remaining items; the
conjunction of line 287 is evaluated left to right and stops at the first
false conjunct. -/
def getImageId.loop (env : Env) (imageName : String) (c : Config) :
    List Image → Go (String × GoError)
  | [] => pure ("", none)
  | item :: rest => do
    let props ← deref item.Properties
    let name ← deref props.Name
    let imgName := if name ≠ "" then name else ""
    let diskType := if c.DiskType = "SSD" then "HDD" else c.DiskType
    if imgName ≠ "" ∧ Contains (env.ToLower imgName) (env.ToLower imageName) = true then do
      let imageType ← deref props.ImageType
      if imageType = diskType then do
        let location ← deref props.Location
        if location = c.Region then do
          let pub ← deref props.Public
          if pub = true then do
            let id ← deref item.Id
            pure (id, none)
          else getImageId.loop env imageName c rest
        else getImageId.loop env imageName c rest
      else getImageId.loop env imageName c rest
    else getImageId.loop env imageName c rest

/-- Function `getImageId` (lines 268-292). -/
def getImageId (env : Env) (imageName : String) (c : Config) : Go (String × GoError) := do
  let (images, resp, err) ← issue .ImagesGet env.client.ImagesGet
  match err with
  | some e => pure ("", some e)
  | none => do
    let r ← deref resp
    if r.StatusCode > 299 then pure ("", some "error occurred while getting images")
    else do
      let items ← deref images.Items
      getImageId.loop env imageName c items

/-- Inner loop of `getImageAlias` (lines 311-319): the alias found, if any. -/
def getImageAlias.inner (env : Env) (imageAlias : String) : List String → Option String
  | [] => none
  | i :: rest =>
    let alias_ := if i ≠ "" then i else ""
    if alias_ ≠ "" ∧ env.EqualFold alias_ imageAlias = true then some alias_
    else getImageAlias.inner env imageAlias rest

/-- Outer loop of `getImageAlias` (lines 308-321). -/
def getImageAlias.outer (env : Env) (imageAlias : String) :
    List Location → Go (String × GoError)
  | [] => pure ("", none)
  | loc :: rest => do
    let props ← deref loc.Properties
    let aliases ← deref props.ImageAliases
    if aliases.length > 0 then
      match getImageAlias.inner env imageAlias aliases with
      | some alias_ => pure (alias_, none)
      | none => getImageAlias.outer env imageAlias rest
    else getImageAlias.outer env imageAlias rest

/-- Function `getImageAlias` (lines 294-324). -/
def getImageAlias (env : Env) (imageAlias : String) (location : String) :
    Go (String × GoError) :=
  if imageAlias = "" then pure ("", none)
  else do
    let (locations, resp, err) ←
      issue (.LocationsFindByRegionId location) (fun t => env.client.LocationsFindByRegionId t location)
    match err with
    | some e => pure ("", some e)
    | none => do
      let r ← deref resp
      if r.StatusCode > 299 then pure ("", some "error occurred while getting locations")
      else do
        let items ← deref locations.Items
        getImageAlias.outer env imageAlias items

/-- Type assertion `v.(string)`. -/
def assertString : Option Value → Go String
  | some (.string s) => pure s
  | some (.stringPtr _) => goPanic "interface conversion: interface {} is *string, not string"
  | some _ => goPanic "interface conversion: interface {} is not string"
  | none => goPanic "interface conversion: interface {} is nil, not string"

/-- Type assertion `v.(*Config)`. -/
def assertConfig : Option Value → Go Config
  | some (.config c) => pure c
  | _ => goPanic "interface conversion: interface {} is not *Config"

/-- Type assertion `v.(packersdk.Ui)`. -/
def assertUi : Option Value → Go Unit
  | some .ui => pure ()
  | _ => goPanic "interface conversion: interface {} is not packer.Ui"

/-- Inner loop of `parseErrorMessage` (lines 333-337) over the entries of one
element of `messages`, appending to `toreturn`. -/
def parseErrorMessage.inner : String → List (String × JsonValue) → Go String
  | toreturn, [] => pure toreturn
  | toreturn, (index, i) :: rest =>
    if index = "message" then
      match i with
      | .string s => parseErrorMessage.inner (toreturn ++ s ++ "\n") rest
      | _ => goPanic "interface conversion: interface {} is not string"
    else parseErrorMessage.inner toreturn rest

/-- Outer loop of `parseErrorMessage` (lines 332-338). -/
def parseErrorMessage.outer : String → List JsonValue → Go String
  | toreturn, [] => pure toreturn
  | toreturn, v :: rest =>
    match v with
    | .object fields => do
      let toreturn ← parseErrorMessage.inner toreturn fields
      parseErrorMessage.outer toreturn rest
    | _ => goPanic "interface conversion: interface {} is not map[string]interface {}"

/-- Function `parseErrorMessage` (lines 326-340). -/
def parseErrorMessage (env : Env) (raw : String) : Go String :=
  match env.UnmarshalMap raw with
  | .error _ => pure ""
  | .ok tmp =>
    match tmp.lookup "messages" with
    | some (.array items) => parseErrorMessage.outer "" items
    | _ => goPanic "interface conversion: interface {} is not []interface {}"

/-- Lines 185-203 of `Run`: record the remaining identifiers. -/
def Run.finish (env : Env) (datacenter : Datacenter) (server : Server) : Go StepAction := do
  let entities ← deref server.Entities
  let vols ← deref entities.Volumes
  let volumes ← deref vols.Items
  let v0 ← index volumes 0
  statePut "volume_id" (.stringPtr v0.Id)
  let dcId ← deref datacenter.Id
  let serverId ← deref server.Id
  let (server, _, err) ←
    issue (.DatacentersServersFindById dcId serverId)
      (fun t => env.client.DatacentersServersFindById t dcId serverId)
  match err with
  | some e => do
    uiError ("Error occurred while finding the server " ++ e)
    pure .ActionHalt
  | none => do
    statePut "instance_id" (.stringPtr server.Id)
    let entities ← deref server.Entities
    let ns ← deref entities.Nics
    let nics ← deref ns.Items
    let n0 ← index nics 0
    let props ← deref n0.Properties
    let ips ← deref props.Ips
    let ip0 ← index ips 0
    statePut "server_ip" (.string ip0)
    pure .ActionContinue

/-- Lines 167-183 of `Run`: attach the LAN to the server, then `Run.finish`. -/
def Run.attachNic (env : Env) (c : Config) (datacenter : Datacenter) (server : Server)
    (lan : Lan) (nic : Nic) : Go StepAction := do
  let dcId ← deref datacenter.Id
  let lanId ← deref lan.Id
  let (_, nicRESP, err) ←
    issue (.DatacentersLansNicsPost dcId lanId)
      (fun t => env.client.DatacentersLansNicsPost t dcId lanId nic)
  match err with
  | some e => do
    uiError ("Error occurred while attaching a NIC " ++ e)
    pure .ActionHalt
  | none => do
    let r ← deref nicRESP
    if r.StatusCode > 299 then do
      let msg ← parseErrorMessage env r.Message
      uiError ("Error occurred " ++ msg)
      pure .ActionHalt
    else do
      let err ← waitTillProvisioned env r.Location c
      match err with
      | some e => do
        uiError ("Error occurred while creating a NIC " ++ e)
        pure .ActionHalt
      | none => Run.finish env datacenter server

/-- Lines 144-165 of `Run`: create the LAN, then `Run.attachNic`. -/
def Run.createLan (env : Env) (c : Config) (datacenter : Datacenter) (server : Server)
    (nic : Nic) : Go StepAction := do
  let lanPost : LanPost :=
    { Properties := some { Public := some true, Name := some c.SnapshotName } }
  let dcId ← deref datacenter.Id
  let (lan, lResp, err) ←
    issue (.DatacentersLansPost dcId) (fun t => env.client.DatacentersLansPost t dcId lanPost)
  match err with
  | some e => do
    uiError ("Error occurred while creating a LAN " ++ e)
    pure .ActionHalt
  | none => do
    let r ← deref lResp
    if r.StatusCode > 299 then do
      let msg ← parseErrorMessage env r.Message
      uiError ("Error occurred " ++ msg)
      pure .ActionHalt
    else do
      let err ← waitTillProvisioned env r.Location c
      match err with
      | some e => do
        uiError ("Error occurred while creating a LAN " ++ e)
        pure .ActionHalt
      | none => Run.attachNic env c datacenter server lan nic

/-- Lines 125-142 of `Run`: record the datacenter, create the server, then
`Run.createLan`. -/
def Run.createServer (env : Env) (c : Config) (datacenter : Datacenter) (server : Server)
    (nic : Nic) : Go StepAction := do
  statePut "datacenter_id" (.stringPtr datacenter.Id)
  let dcId ← deref datacenter.Id
  let (server, sResp, err) ←
    issue (.DatacentersServersPost dcId) (fun t => env.client.DatacentersServersPost t dcId server)
  match err with
  | some e => do
    uiError ("Error occurred while creating a server " ++ e)
    pure .ActionHalt
  | none => do
    let r ← deref sResp
    if r.StatusCode > 299 then do
      let msg ← parseErrorMessage env r.Message
      uiError ("Error occurred " ++ msg)
      pure .ActionHalt
    else do
      let err ← waitTillProvisioned env r.Location c
      match err with
      | some e => do
        uiError ("Error occurred while creating a server " ++ e)
        pure .ActionHalt
      | none => Run.createLan env c datacenter server nic

/-- Lines 49-123 of `Run`: build the requests, create the datacenter and wait
for it, then `Run.createServer`. -/
def Run.createDatacenter (env : Env) (c : Config) (img alias_ : String) : Go StepAction := do
  let datacenter : Datacenter :=
    { Id := none
      Properties := some { Name := some c.SnapshotName, Location := some c.Region } }
  let props : VolumeProperties :=
    { Type_ := some c.DiskType
      Size := some c.DiskSize
      Name := some c.SnapshotName
      ImageAlias := some alias_
      Image := some img
      SshKeys := some [c.Comm.SSHPublicKey]
      ImagePassword := if c.Comm.SSHPassword ≠ "" then some c.Comm.SSHPassword else none
      LicenceType := none }
  let nic : Nic :=
    { Id := none
      Properties := some { Name := some c.SnapshotName, Dhcp := some true, Ips := none } }
  let server : Server :=
    { Id := none
      Properties :=
        some { Name := some c.SnapshotName, Ram := some c.Ram, Cores := some c.Cores,
               BootVolume := none }
      Entities :=
        some { Volumes := some { Items := some [{ Id := none, Properties := some props }] }
               Nics := some { Items := some [nic] } } }
  let (datacenter, resp, err) ←
    issue .DatacentersPost (fun t => env.client.DatacentersPost t datacenter)
  match err with
  | some e => do
    uiError ("Error occurred while creating a datacenter " ++ e)
    pure .ActionHalt
  | none => do
    let r ← deref resp
    if r.StatusCode > 299 then
      match env.UnmarshalRestError r.Message with
      | .error e => do
        uiError ("Error decoding json response: " ++ e)
        pure .ActionHalt
      | .ok restError => do
        match restError.Messages with
        | m :: _ => uiError m.Message
        | [] => uiError r.Message
        pure .ActionHalt
    else do
      let err ← waitTillProvisioned env r.Location c
      match err with
      | some e => do
        uiError ("Error occurred while creating a datacenter " ++ e)
        pure .ActionHalt
      | none => Run.createServer env c datacenter server nic

/-- Method `Run` (lines 30-204); lines 49-204 are `Run.createDatacenter`. -/
def Run (env : Env) : Go StepAction := do
  let _ ← stateGet "ui" >>= assertUi
  let c ← stateGet "config" >>= assertConfig
  uiSay "Creating Virtual Data Center..."
  let (img, err) ← getImageId env c.Image c
  match err with
  | some e => do
    uiError ("Error occurred while getting image " ++ e)
    pure .ActionHalt
  | none =>
    if img = "" then do
      let (alias_, err) ← getImageAlias env c.Image c.Region
      match err with
      | some e => do
        uiError ("Error occurred while getting image " ++ e)
        pure .ActionHalt
      | none => Run.createDatacenter env c img alias_
    else Run.createDatacenter env c img ""

/-- Method `Cleanup` (lines 206-227). -/
def Cleanup (env : Env) : Go Unit := do
  let c ← stateGet "config" >>= assertConfig
  let _ ← stateGet "ui" >>= assertUi
  uiSay "Removing Virtual Data Center..."
  let dc ← stateGet "datacenter_id"
  match dc with
  | none => pure ()
  | some dcId => do
    let id ← assertString (some dcId)
    let (resp, err) ← issue (.DatacentersDelete id) (fun t => env.client.DatacentersDelete t id)
    match err with
    | some e =>
      uiError ("Error deleting Virtual Data Center. Please destroy it manually: " ++ e)
    | none => pure ()
    let err ← checkForErrors resp
    match err with
    | some e =>
      uiError ("Error deleting Virtual Data Center. Please destroy it manually: " ++ e)
    | none => pure ()
    let r ← deref resp
    let err ← waitTillProvisioned env r.Location c
    match err with
    | some e =>
      uiError ("Error deleting Virtual Data Center. Please destroy it manually: " ++ e)
    | none => pure ()

end stepCreateServer

/-! ## step_take_snapshot.go -/

namespace stepTakeSnapshot

/-- Go's `int64` arithmetic wraps around. -/
def wrapInt64 (x : Int) : Int :=
  (x + 9223372036854775808) % 18446744073709551616 - 9223372036854775808

/-- The constant `time.Second` in nanoseconds. -/
def Second : Int := 1000000000

/-- The value `waitInterval` of both snapshot waiters: `10 * time.Second`. -/
def waitInterval : Int := 10 * Second

/-- The number printed by `int64(waitCount)*int64(waitInterval)/int64(time.Second)`. -/
def waitedSeconds (waitCount : Int) : Int :=
  Int.tdiv (wrapInt64 (waitCount * waitInterval)) Second

/-- How a polling loop is left: by a `return` in its body, or by `break` or
the loop condition with the current value of `done`. -/
inductive LoopExit where
  | returns (err : GoError)
  | leaves (done : Bool)
deriving DecidableEq, Repr

/-- Loop of `waitForRequest` (lines 115-130). -/
def waitForRequest.loop (env : Env) (path : String) (waitCount : Int) :
    Nat → Int → Go LoopExit
  | 0, _ => goOutOfFuel
  | fuel + 1, i =>
    if i < waitCount then do
      let (request, resp, err) ← issue (.GetRequestStatus path) (fun t => env.client.GetRequestStatus t path)
      match err with
      | some e => pure (.returns (some e))
      | none => do
        let rq ← deref request
        let md ← deref rq.Metadata
        let s ← deref md.Status
        uiSay ("request status = " ++ s)
        if s = "DONE" then pure (.leaves true)
        else if s = "FAILED" then do
          let r ← deref resp
          pure (.returns (some ("request failed: " ++ r.Message)))
        else waitForRequest.loop env path waitCount fuel (i + 1 + 1)
    else pure (.leaves false)

/-- Function `waitForRequest` (lines 107-137). -/
def waitForRequest (env : Env) (path : String) (config : Config) : Go GoError := do
  uiSay ("Watching request " ++ path)
  let waitCount : Int := if config.Retries > 0 then config.Retries else 50
  let exit ← waitForRequest.loop env path waitCount (waitCount.toNat + 1) 0
  match exit with
  | .returns err => pure err
  | .leaves done =>
    if done = false then
      pure (some ("request not fulfilled after waiting " ++ toString (waitedSeconds waitCount)
        ++ " seconds"))
    else pure none

/-- Loop of `waitTillSnapshotAvailable` (lines 148-164). -/
def waitTillSnapshotAvailable.loop (env : Env) (id : String) (waitCount : Int) :
    Nat → Int → Go LoopExit
  | 0, _ => goOutOfFuel
  | fuel + 1, i =>
    if i < waitCount then do
      let (snapshot, resp, err) ← issue (.SnapshotsFindById id) (fun t => env.client.SnapshotsFindById t id)
      match err with
      | some e => pure (.returns (some e))
      | none => do
        let md ← deref snapshot.Metadata
        let st ← deref md.State
        uiSay ("snapshot status = " ++ st)
        let r ← deref resp
        if r.StatusCode ≠ 200 then pure (.returns (some r.Message))
        else if st = "AVAILABLE" then pure (.leaves true)
        else do
          uiSay ("... still waiting, " ++ toString (wrapInt64 (waitInterval * (i + 1)))
            ++ " seconds have passed")
          waitTillSnapshotAvailable.loop env id waitCount fuel (i + 1 + 1)
    else pure (.leaves false)

/-- Function `waitTillSnapshotAvailable` (lines 139-173). -/
def waitTillSnapshotAvailable (env : Env) (id : String) (config : Config) : Go GoError := do
  let waitCount : Int := if config.Retries > 0 then config.Retries else 50
  uiSay ("waiting for snapshot " ++ id ++ " to become available")
  let exit ← waitTillSnapshotAvailable.loop env id waitCount (waitCount.toNat + 1) 0
  match exit with
  | .returns err => pure err
  | .leaves done =>
    if done = false then
      pure (some ("snapshot not created after waiting " ++ toString (waitedSeconds waitCount)
        ++ " seconds"))
    else do
      uiSay "snapshot created"
      pure none

/-- Function `syncFs` (lines 175-186). -/
def syncFs (env : Env) : Go GoError := do
  let (startErr, status) ←
    issue (.CommunicatorStart "sync") (fun t => (env.comm.Start t "sync", env.comm.ExitStatus t "sync"))
  match startErr with
  | some e => pure (some e)
  | none =>
    if status ≠ 0 then pure (some ("sync command exited with code " ++ toString status))
    else pure none

/-- Function `getOs` (lines 188-212). -/
def getOs (env : Env) (dcId : String) (serverId : String) : Go (String × GoError) := do
  let (server, resp, err) ←
    issue (.DatacentersServersFindById dcId serverId)
      (fun t => env.client.DatacentersServersFindById t dcId serverId)
  match err with
  | some e => pure ("", some e)
  | none => do
    let r ← deref resp
    if r.StatusCode ≠ 200 then pure ("", some r.Message)
    else do
      let props ← deref server.Properties
      match props.BootVolume with
      | none => pure ("", some "no boot volume found on server")
      | some bootVolume => do
        let volumeId ← deref bootVolume.Id
        let (volume, resp, err) ←
          issue (.DatacentersVolumesFindById dcId volumeId)
            (fun t => env.client.DatacentersVolumesFindById t dcId volumeId)
        match err with
        | some e => pure ("", some e)
        | none => do
          let r ← deref resp
          if r.StatusCode ≠ 200 then pure ("", some r.Message)
          else do
            let vprops ← deref volume.Properties
            let licence ← deref vprops.LicenceType
            pure (licence, none)

/-- Lines 63-101 of `Run`: create the snapshot and wait for it. -/
def Run.createSnapshot (env : Env) (c : Config) (dcId volumeId : String) : Go StepAction := do
  let (snapshot, resp, err) ←
    issue (.DatacentersVolumesCreateSnapshotPost dcId volumeId)
      (fun t => env.client.DatacentersVolumesCreateSnapshotPost t dcId volumeId)
  match err with
  | some e => do
    uiError ("An error occurred while creating a snapshot: " ++ e)
    pure .ActionHalt
  | none => do
    let r ← deref resp
    if r.StatusCode > 299 then
      match env.UnmarshalRestError r.Message with
      | .error e => do
        uiError e
        pure .ActionHalt
      | .ok restError => do
        match restError.Messages with
        | m :: _ => uiError m.Message
        | [] => uiError r.Message
        pure .ActionHalt
    else do
      statePut "snapshotname" (.string c.SnapshotName)
      uiSay ("Creating a snapshot for " ++ dcId ++ "/volumes/" ++ volumeId)
      let err ← waitForRequest env r.Location c
      match err with
      | some e => do
        uiError ("An error occurred while waiting for the request to be done: " ++ e)
        pure .ActionHalt
      | none => do
        let snapshotId ← deref snapshot.Id
        let err ← waitTillSnapshotAvailable env snapshotId c
        match err with
        | some e => do
          uiError ("An error occurred while waiting for the snapshot to be created: " ++ e)
          pure .ActionHalt
        | none => pure .ActionContinue

/-- The comma-ok assertion `v.(packersdk.Communicator)`: whether the result is
non-nil. -/
def isCommunicator : Option Value → Bool
  | some .communicator => true
  | _ => false

/-- Method `Run` (lines 30-102); lines 63-101 are `Run.createSnapshot`. -/
def Run (env : Env) : Go StepAction := do
  let _ ← stateGet "ui" >>= stepCreateServer.assertUi
  let c ← stateGet "config" >>= stepCreateServer.assertConfig
  uiSay "Creating ProfitBricks snapshot..."
  let dcId ← stateGet "datacenter_id" >>= stepCreateServer.assertString
  let volumeId ← stateGet "volume_id" >>= stepCreateServer.assertString
  let serverId ← stateGet "instance_id" >>= stepCreateServer.assertString
  let comm ← stateGet "communicator"
  if isCommunicator comm = false then do
    uiError "no communicator found"
    pure .ActionHalt
  else do
    let (os, err) ← getOs env dcId serverId
    match err with
    | some e => do
      uiError ("an error occurred while getting the server os: " ++ e)
      pure .ActionHalt
    | none => do
      uiSay ("Server OS is " ++ os)
      if env.ToLower os = "linux" then do
        uiSay "syncing file system changes"
        let err ← syncFs env
        match err with
        | some e => do
          uiError ("error syncing fs changes: " ++ e)
          pure .ActionHalt
        | none => Run.createSnapshot env c dcId volumeId
      else Run.createSnapshot env c dcId volumeId

end stepTakeSnapshot

/-! ## Notions used in the statements -/

/-- The status fetch issued after `t` earlier calls is answered without error
by a status that is neither `DONE` nor `FAILED`. -/
def pendingAt (env : Env) (path : String) (t : Nat) : Prop :=
  ∃ s msg resp, env.client.GetRequestStatus t path = (some ⟨some ⟨some s, msg⟩⟩, resp, none)
    ∧ s ≠ "DONE" ∧ s ≠ "FAILED"

/-- The snapshot fetch issued after `t` earlier calls is answered without
error, with status code 200, by a snapshot whose state is not `AVAILABLE`. -/
def notAvailableAt (env : Env) (id : String) (t : Nat) : Prop :=
  ∃ sid st resp, env.client.SnapshotsFindById t id = (⟨sid, some ⟨some st⟩⟩, some resp, none)
    ∧ resp.StatusCode = 200 ∧ st ≠ "AVAILABLE"

/-- An image whose identifier and four searched properties are all present. -/
def Image.populated (img : Image) : Bool :=
  match img with
  | ⟨some _, some ⟨some _, some _, some _, some _⟩⟩ => true
  | _ => false

/-- The image type the claim says is searched for: `HDD` for a requested
`SSD`, and `SSD` for any other requested type. -/
def claimedSearchedImageType (diskType : String) : String :=
  if diskType = "SSD" then "HDD" else "SSD"

/-- The four conditions of the claim on a catalog image. -/
def claimedImageMatch (env : Env) (imageName : String) (c : Config) (img : Image) : Bool :=
  match img.Properties with
  | some ⟨some name, some imageType, some location, some pub⟩ =>
    Contains (env.ToLower name) (env.ToLower imageName)
      && imageType == claimedSearchedImageType c.DiskType
      && location == c.Region
      && pub
  | _ => false

/-- The identifier the claim says is returned: that of the first catalog image
satisfying the four conditions, or the empty string. -/
def claimedImageId (env : Env) (imageName : String) (c : Config) (items : List Image) : String :=
  match items.find? (claimedImageMatch env imageName c) with
  | some img => img.Id.getD ""
  | none => ""

/-- The image type that is searched for: `HDD` for a requested `SSD`, and the
requested type itself otherwise. -/
def searchedImageType (diskType : String) : String :=
  if diskType = "SSD" then "HDD" else diskType

/-- The conditions on a catalog image as amended: a non-empty name containing
the requested name case-insensitively, the searched image type, the region,
and the public flag. -/
def imageMatches (env : Env) (imageName : String) (c : Config) (img : Image) : Bool :=
  match img.Properties with
  | some ⟨some name, some imageType, some location, some pub⟩ =>
    name != ""
      && Contains (env.ToLower name) (env.ToLower imageName)
      && imageType == searchedImageType c.DiskType
      && location == c.Region
      && pub
  | _ => false

/-- The identifier of the first catalog image satisfying `imageMatches`, or
the empty string. -/
def firstMatchingImageId (env : Env) (imageName : String) (c : Config) (items : List Image) :
    String :=
  match items.find? (imageMatches env imageName c) with
  | some img => img.Id.getD ""
  | none => ""

/-- A catalog with a single public `HDD` image in `de/txl`. -/
def catalogOf (id name : String) : Images :=
  { Items := some [{ Id := some id
                     Properties := some { Name := some name, ImageType := some "HDD",
                                          Location := some "de/txl", Public := some true } }] }

/-- Every run of `x` appends to the trace only calls satisfying `allowed`. -/
structure Appends {α : Type} (allowed : Call → Prop) (x : Go α) : Prop where
  out : ∀ w : World, ∃ cs, (x.run w).2.calls = w.calls ++ cs ∧ ∀ call ∈ cs, allowed call

/-- Every run of `x` leaves the state bag as it found it. -/
structure KeepsState {α : Type} (x : Go α) : Prop where
  out : ∀ w : World, (x.run w).2.state = w.state

/-- A JSON object each of whose "message" entries is a string. -/
def isMessageObject : JsonValue → Prop
  | .object fields => ∀ k v, (k, v) ∈ fields → k = "message" → ∃ s, v = .string s
  | _ => False

/-- What C8 says of the outcome `r` of a run whose NIC attachment call was
answered by the response `resp` and the error `err`. If the call returned an
error, the step returns Halt and the last line shown to the operator is the
error "Error occurred while attaching a NIC " followed by the error's text. If
the call returned no error and a response with a status above 299 whose message
decodes to an envelope, `messages` being a list of objects with string
messages the first of which holds the message `m`, the step returns Halt and
the last line shown is an error whose text contains `m`. -/
def nicFailureReported (env : Env) (r : Res StepAction × World) (resp : Option APIResponse)
    (err : GoError) : Prop :=
  (∀ e, err = some e →
    r.1 = .ret .ActionHalt
      ∧ r.2.ui.getLast? = some (.error ("Error occurred while attaching a NIC " ++ e)))
  ∧ (err = none → ∀ (r0 : APIResponse) (tmp o : List (String × JsonValue))
      (rest : List JsonValue) (m : String),
    resp = some r0 → r0.StatusCode > 299 →
    env.UnmarshalMap r0.Message = .ok tmp →
    tmp.lookup "messages" = some (.array (.object o :: rest)) →
    ("message", JsonValue.string m) ∈ o →
    (∀ v ∈ JsonValue.object o :: rest, isMessageObject v) →
    r.1 = .ret .ActionHalt
      ∧ ∃ text, r.2.ui.getLast? = some (.error text) ∧ m.data <:+: text.data)

/-- The property of C8 for a part `x` of `Run` that is given the NIC request
`nic`: in every run of `x` whose first NIC attachment call is issued after the
calls `pre`, the outcome is as `nicFailureReported` says for the answer the
call gets there. -/
structure ReportsNicFailure (env : Env) (nic : Nic) (x : Go StepAction) : Prop where
  out : ∀ (w : World) (pre post : List Call) (d l : String) (nicR : Nic)
      (resp : Option APIResponse) (err : GoError),
    (∀ call ∈ w.calls, ∀ d l, call ≠ .DatacentersLansNicsPost d l) →
    (x.run w).2.calls = pre ++ Call.DatacentersLansNicsPost d l :: post →
    (∀ call ∈ pre, ∀ d l, call ≠ .DatacentersLansNicsPost d l) →
    env.client.DatacentersLansNicsPost pre.length d l nic = (nicR, resp, err) →
    nicFailureReported env (x.run w) resp err

/-- The property of C8 for a step computation `x` run from a state bag holding
the configuration `c`, from which the NIC request is built. -/
structure ReportsNicFailureFor (env : Env) (c : Config) (x : Go StepAction) : Prop where
  out : ∀ (w : World) (pre post : List Call) (d l : String) (nicR : Nic)
      (resp : Option APIResponse) (err : GoError),
    w.state.lookup "config" = some (.config c) →
    (∀ call ∈ w.calls, ∀ d l, call ≠ .DatacentersLansNicsPost d l) →
    (x.run w).2.calls = pre ++ Call.DatacentersLansNicsPost d l :: post →
    (∀ call ∈ pre, ∀ d l, call ≠ .DatacentersLansNicsPost d l) →
    env.client.DatacentersLansNicsPost pre.length d l
        { Id := none
          Properties := some { Name := some c.SnapshotName, Dhcp := some true, Ips := none } }
      = (nicR, resp, err) →
    nicFailureReported env (x.run w) resp err

/-- The property of C5 for a step computation `x` run under configuration
`c`. In a run of `x` from a state bag holding `c`, if the first datacenter
creation call is issued after the calls `pre`, is answered there without error
and with a status of at most 299, and the wait on its operation, run from that
trace, returns an error, then `x` returns Halt and leaves the state bag as it
found it. -/
structure HaltsWhenCreationWaitFails (env : Env) (c : Config) (x : Go StepAction) : Prop where
  out : ∀ (w : World) (pre post : List Call) (dcR : Datacenter) (resp : APIResponse),
    w.state.lookup "config" = some (.config c) →
    Call.DatacentersPost ∉ w.calls →
    (x.run w).2.calls = pre ++ Call.DatacentersPost :: post →
    Call.DatacentersPost ∉ pre →
    env.client.DatacentersPost pre.length
        { Id := none
          Properties := some { Name := some c.SnapshotName, Location := some c.Region } }
      = (dcR, some resp, none) →
    resp.StatusCode ≤ 299 →
    (∀ w1 : World, w1.calls = pre ++ [Call.DatacentersPost] →
      ∃ e, ((stepCreateServer.waitTillProvisioned env resp.Location c).run w1).1
        = .ret (some e)) →
    (x.run w).1 = .ret .ActionHalt ∧ (x.run w).2.state = w.state

/-- Whenever `x` runs from a state bag satisfying `pre` and returns Continue,
the state bag it leaves satisfies `post`. -/
structure ContinuesWith (pre post : StateBag → Prop) (x : Go StepAction) : Prop where
  out : ∀ w : World, pre w.state → (x.run w).1 = .ret .ActionContinue → post (x.run w).2.state

/-- The state bag holds a `*string` under `datacenter_id`. -/
def datacenterIsPointer (s : StateBag) : Prop :=
  ∃ p, s.lookup "datacenter_id" = some (.stringPtr p)

/-- The state bag holds `*string` values under the three identifier keys. -/
def identifiersArePointers (s : StateBag) : Prop :=
  (∃ p, s.lookup "datacenter_id" = some (.stringPtr p))
    ∧ (∃ p, s.lookup "volume_id" = some (.stringPtr p))
    ∧ (∃ p, s.lookup "instance_id" = some (.stringPtr p))

/-- The call at trace position `len - 1`, not before position `t0`, is a status
fetch answered, without error, by the status `DONE`. -/
def lastFetchDone (env : Env) (path : String) (t0 len : Nat) : Prop :=
  ∃ k msg resp, t0 ≤ k ∧ len = k + 1
    ∧ env.client.GetRequestStatus k path = (some ⟨some ⟨some "DONE", msg⟩⟩, resp, none)

/-- Every status fetch at a trace position from `t0` up to, and not including,
`len` is answered, without error, by a non-terminal status. -/
def allFetchesPending (env : Env) (path : String) (t0 len : Nat) : Prop :=
  ∀ k, t0 ≤ k → k < len → pendingAt env path k

/-! ## Sample environments -/

/-- ASCII lower-casing, which is what `strings.ToLower` does on ASCII text. -/
def asciiLower (s : String) : String :=
  String.mk (s.data.map Char.toLower)

/-- A configuration with the given retry count and requested volume. -/
def sampleConfig (retries : Int) (image diskType region : String) : Config :=
  { Comm := { SSHPublicKey := "ssh-rsa AAAA", SSHPassword := "" }
    Image := image
    SnapshotName := "packer-snapshot"
    DiskSize := 50
    DiskType := diskType
    Cores := 2
    Ram := 4096
    Retries := retries
    Region := region }

/-- A healthy provider: every call succeeds, every operation is `DONE` and the
snapshot is `AVAILABLE` at the first fetch. -/
def healthyClient : APIClient where
  ImagesGet := fun _ =>
    ({ Items := some [{ Id := some "img-1"
                        Properties := some { Name := some "Ubuntu-20.04", ImageType := some "HDD",
                                             Location := some "de/txl", Public := some true } }] },
     some ⟨200, "", ""⟩, none)
  LocationsFindByRegionId := fun _ _ =>
    ({ Items := some [{ Properties := some { ImageAliases := some ["ubuntu:latest"] } }] },
     some ⟨200, "", ""⟩, none)
  DatacentersPost := fun _ d => ({ d with Id := some "dc-1" }, some ⟨202, "", "/requests/dc"⟩, none)
  DatacentersServersPost := fun _ _ s =>
    ({ s with Id := some "srv-1"
              Entities := some { Volumes := some { Items := some [{ Id := some "vol-1", Properties := none }] }
                                 Nics := some { Items := some [] } } },
     some ⟨202, "", "/requests/server"⟩, none)
  DatacentersLansPost := fun _ _ _ => ({ Id := some "1" }, some ⟨202, "", "/requests/lan"⟩, none)
  DatacentersLansNicsPost := fun _ _ _ n =>
    ({ n with Id := some "nic-1" }, some ⟨202, "", "/requests/nic"⟩, none)
  DatacentersServersFindById := fun _ _ _ =>
    ({ Id := some "srv-1"
       Properties := some { Name := some "packer-snapshot", Ram := some 4096, Cores := some 2,
                            BootVolume := some { Id := some "vol-1" } }
       Entities := some { Volumes := some { Items := some [{ Id := some "vol-1", Properties := none }] }
                          Nics := some { Items := some [{ Id := some "nic-1"
                                                          Properties := some { Name := some "packer-snapshot"
                                                                               Dhcp := some true
                                                                               Ips := some ["192.0.2.10"] } }] } } },
     some ⟨200, "", ""⟩, none)
  DatacentersDelete := fun _ _ => (some ⟨202, "", "/requests/delete"⟩, none)
  GetRequestStatus := fun _ _ => (some ⟨some ⟨some "DONE", some ""⟩⟩, some ⟨200, "", ""⟩, none)
  DatacentersVolumesCreateSnapshotPost := fun _ _ _ =>
    ({ Id := some "snap-1", Metadata := some ⟨some "BUSY"⟩ }, some ⟨202, "", "/requests/snapshot"⟩, none)
  SnapshotsFindById := fun _ _ =>
    ({ Id := some "snap-1", Metadata := some ⟨some "AVAILABLE"⟩ }, some ⟨200, "", ""⟩, none)
  DatacentersVolumesFindById := fun _ _ _ =>
    ({ Id := some "vol-1"
       Properties := some { Type_ := some "HDD", Size := some 50, Name := some "packer-snapshot",
                            ImageAlias := none, Image := none, SshKeys := none,
                            ImagePassword := none, LicenceType := some "LINUX" } },
     some ⟨200, "", ""⟩, none)

/-- The error body of the quota scenario. -/
def quotaBody : String := "\x7b\"messages\":[\x7b\"message\":\"quota exceeded\"\x7d]\x7d"

/-- An environment around a client: a communicator whose commands succeed,
ASCII case mapping, and a JSON decoder that knows the quota body only. -/
def sampleEnv (client : APIClient) : Env where
  client := client
  comm := { Start := fun _ _ => none, ExitStatus := fun _ _ => 0 }
  ToLower := asciiLower
  EqualFold := fun a b => asciiLower a == asciiLower b
  UnmarshalRestError := fun raw =>
    if raw = quotaBody then .ok { HttpStatus := 0, Messages := [{ ErrorCode := "", Message := "quota exceeded" }] }
    else .error "invalid character"
  UnmarshalMap := fun raw =>
    if raw = quotaBody then .ok [("messages", .array [.object [("message", .string "quota exceeded")]])]
    else .error "invalid character"

/-- A provider whose operation statuses follow a script of (status, message)
pairs, one per status fetch, and stay `PENDING` after the script. -/
def scriptedStatusClient (script : List (String × String)) : APIClient :=
  { healthyClient with
    GetRequestStatus := fun t _ =>
      match script.get? t with
      | some (s, m) => (some ⟨some ⟨some s, some m⟩⟩, some ⟨200, m, ""⟩, none)
      | none => (some ⟨some ⟨some "PENDING", some ""⟩⟩, some ⟨200, "", ""⟩, none) }

/-- A provider whose operations stay `PENDING` and whose snapshot stays `BUSY`. -/
def stuckClient : APIClient :=
  { scriptedStatusClient [] with
    SnapshotsFindById := fun _ _ =>
      ({ Id := some "snap-1", Metadata := some ⟨some "BUSY"⟩ }, some ⟨200, "", ""⟩, none) }

/-- A world with the given state bag, no call issued and nothing shown yet. -/
def freshWorld (state : StateBag) : World :=
  { state := state, calls := [], ui := [] }

/-- The state bag as the builder hands it to the steps: UI, configuration and
communicator. -/
def sampleBag (c : Config) : StateBag :=
  [("ui", .ui), ("config", .config c), ("communicator", .communicator)]

/-- A provider whose container delete call fails in transport: no response
object, an error. -/
def unreachableDeleteClient : APIClient :=
  { healthyClient with DatacentersDelete := fun _ _ => (none, some "connection refused") }

/-- The state bag after a create-server step whose identifiers are strings. -/
def snapshotBag (c : Config) : StateBag :=
  [("datacenter_id", .string "dc-1"), ("volume_id", .string "vol-1"),
   ("instance_id", .string "srv-1")] ++ sampleBag c

/-- A provider whose boot volume carries the given licence type. -/
def licenceClient (licence : String) : APIClient :=
  { healthyClient with
    DatacentersVolumesFindById := fun _ _ _ =>
      ({ Id := some "vol-1"
         Properties := some { Type_ := some "HDD", Size := some 50, Name := some "packer-snapshot",
                              ImageAlias := none, Image := none, SshKeys := none,
                              ImagePassword := none, LicenceType := some licence } },
       some ⟨200, "", ""⟩, none) }

/-- An environment whose guest commands exit with status 1. -/
def failingSyncEnv (client : APIClient) : Env :=
  { sampleEnv client with comm := { Start := fun _ _ => none, ExitStatus := fun _ _ => 1 } }

/-- A provider that reports every operation as `FAILED`. -/
def failingOperationClient : APIClient :=
  { healthyClient with
    GetRequestStatus := fun _ _ =>
      (some ⟨some ⟨some "FAILED", some "provisioning failed"⟩⟩, some ⟨200, "", ""⟩, none) }

/-- A provider whose NIC attachment call returns an error together with a 422
response carrying the quota body. -/
def nicErrorClient : APIClient :=
  { healthyClient with
    DatacentersLansNicsPost := fun _ _ _ n =>
      (n, some ⟨422, quotaBody, ""⟩, some "422 Unprocessable Entity") }

/-- A provider whose NIC attachment call is answered 422 with the quota body,
reported the way the SDK reports a non-success status: as an error whose text
is the status line and the body, on a response with an empty message. -/
def sdkQuotaClient : APIClient :=
  { healthyClient with
    DatacentersLansNicsPost := fun _ _ _ n =>
      (n, some ⟨422, "", ""⟩, some ("422 Unprocessable Entity: " ++ quotaBody)) }

/-- A provider whose NIC attachment call returns no error and a 422 response
whose message is the quota body. -/
def quotaClient : APIClient :=
  { healthyClient with
    DatacentersLansNicsPost := fun _ _ _ n => (n, some ⟨422, quotaBody, ""⟩, none) }

/-- A provider whose third and fourth calls, when they are status fetches, are
answered `PENDING` and then `FAILED`. -/
def pendingThenFailedClient : APIClient :=
  scriptedStatusClient [("", ""), ("", ""), ("PENDING", ""), ("FAILED", "provisioning failed")]

/-! # Properties -/

section runLemmas

variable {α β : Type}

@[simp] theorem run_pure (a : α) (w : World) : (pure a : Go α).run w = (.ret a, w) := rfl

@[simp] theorem run_Gopure (a : α) (w : World) : (Go.pure a : Go α).run w = (.ret a, w) := rfl

theorem run_bind (x : Go α) (f : α → Go β) (w : World) :
    (x >>= f).run w = match x.run w with
      | (.ret a, w1) => (f a).run w1
      | (.panic r, w1) => (.panic r, w1)
      | (.outOfFuel, w1) => (.outOfFuel, w1) := rfl

@[simp] theorem run_issue (c : Call) (answer : Nat → α) (w : World) :
    (issue c answer).run w
      = (.ret (answer w.calls.length), { w with calls := w.calls ++ [c] }) := rfl

@[simp] theorem run_deref_some (a : α) (w : World) : (deref (some a)).run w = (.ret a, w) := rfl

@[simp] theorem run_deref_none (w : World) :
    (deref (none : Option α)).run w
      = (.panic "invalid memory address or nil pointer dereference", w) := rfl

@[simp] theorem run_goPanic (r : String) (w : World) :
    (goPanic r : Go α).run w = (.panic r, w) := rfl

@[simp] theorem run_goOutOfFuel (w : World) : (goOutOfFuel : Go α).run w = (.outOfFuel, w) := rfl

@[simp] theorem run_uiSay (s : String) (w : World) :
    (uiSay s).run w = (.ret (), { w with ui := w.ui ++ [.say s] }) := rfl

@[simp] theorem run_uiError (s : String) (w : World) :
    (uiError s).run w = (.ret (), { w with ui := w.ui ++ [.error s] }) := rfl

@[simp] theorem run_stateGet (key : String) (w : World) :
    (stateGet key).run w = (.ret (w.state.lookup key), w) := rfl

@[simp] theorem run_statePut (key : String) (v : Value) (w : World) :
    (statePut key v).run w = (.ret (), { w with state := (key, v) :: w.state }) := rfl

end runLemmas

namespace stepCreateServer

/-- The fuel given to the loop of `waitTillProvisioned` is never used up. -/
theorem waitTillProvisioned_loop_total (env : Env) (path : String) (N : Int) :
    ∀ (fuel : Nat) (i : Int) (w : World), i ≤ N + 1 → N + 2 - i ≤ 2 * (fuel : Int) →
      ((waitTillProvisioned.loop env path N fuel i).run w).1 ≠ .outOfFuel := by
  intro fuel
  induction fuel with
  | zero => intro i w h1 h2; omega
  | succ fuel ih =>
    intro i w h1 h2
    unfold waitTillProvisioned.loop
    by_cases hi : i < N
    · rcases h : env.client.GetRequestStatus w.calls.length path with ⟨status, resp, err⟩
      simp only [if_pos hi, run_bind, run_issue, h]
      rcases err with _ | e
      · rcases status with _ | ⟨_ | ⟨_ | s, msg⟩⟩
        · simp [run_bind]
        · simp [run_bind]
        · simp [run_bind]
        · by_cases hd : s = "DONE"
          · simp [run_bind, hd]
          · by_cases hf : s = "FAILED"
            · rcases msg with _ | m <;> simp [run_bind, hf]
            · simp only [run_bind, run_deref_some, hd, hf, if_false]
              exact ih _ _ (by omega) (by push_cast at h2 ⊢; omega)
      · simp
    · simp [hi]

/-- The function `waitTillProvisioned` always returns or panics. -/
theorem waitTillProvisioned_total (env : Env) (path : String) (config : Config) (w : World) :
    ((waitTillProvisioned env path config).run w).1 ≠ .outOfFuel := by
  unfold waitTillProvisioned
  exact waitTillProvisioned_loop_total env path _ _ 0 w (by split <;> omega) (by split <;> omega)

end stepCreateServer

namespace stepTakeSnapshot

/-- The fuel given to the loop of `waitForRequest` is never used up. -/
theorem waitForRequest_loop_total (env : Env) (path : String) (N : Int) :
    ∀ (fuel : Nat) (i : Int) (w : World), i ≤ N + 1 → N + 2 - i ≤ 2 * (fuel : Int) →
      ((waitForRequest.loop env path N fuel i).run w).1 ≠ .outOfFuel := by
  intro fuel
  induction fuel with
  | zero => intro i w h1 h2; omega
  | succ fuel ih =>
    intro i w h1 h2
    unfold waitForRequest.loop
    by_cases hi : i < N
    · rcases h : env.client.GetRequestStatus w.calls.length path with ⟨status, resp, err⟩
      simp only [if_pos hi, run_bind, run_issue, h]
      rcases err with _ | e
      · rcases status with _ | ⟨_ | ⟨_ | s, msg⟩⟩
        · simp [run_bind]
        · simp [run_bind]
        · simp [run_bind]
        · by_cases hd : s = "DONE"
          · simp [run_bind, hd]
          · by_cases hf : s = "FAILED"
            · rcases resp with _ | r <;> simp [run_bind, hf]
            · simp only [run_bind, run_deref_some, run_uiSay, hd, hf, if_false]
              exact ih _ _ (by omega) (by push_cast at h2 ⊢; omega)
      · simp
    · simp [hi]

/-- The function `waitForRequest` always returns or panics. -/
theorem waitForRequest_total (env : Env) (path : String) (config : Config) (w : World) :
    ((waitForRequest env path config).run w).1 ≠ .outOfFuel := by
  unfold waitForRequest
  simp only [run_bind, run_uiSay]
  have h := waitForRequest_loop_total env path (if config.Retries > 0 then config.Retries else 50)
    ((if config.Retries > 0 then config.Retries else 50).toNat + 1) 0
    { w with ui := w.ui ++ [.say ("Watching request " ++ path)] }
    (by split <;> omega) (by split <;> omega)
  revert h
  generalize (waitForRequest.loop env path _ _ 0).run _ = r
  rcases r with ⟨_ | _ | _, w1⟩
  · rename_i x
    intro _
    rcases x with _ | d
    · simp
    · cases d <;> simp
  · simp
  · simp

/-- The fuel given to the loop of `waitTillSnapshotAvailable` is never used up. -/
theorem waitTillSnapshotAvailable_loop_total (env : Env) (id : String) (N : Int) :
    ∀ (fuel : Nat) (i : Int) (w : World), i ≤ N + 1 → N + 2 - i ≤ 2 * (fuel : Int) →
      ((waitTillSnapshotAvailable.loop env id N fuel i).run w).1 ≠ .outOfFuel := by
  intro fuel
  induction fuel with
  | zero => intro i w h1 h2; omega
  | succ fuel ih =>
    intro i w h1 h2
    unfold waitTillSnapshotAvailable.loop
    by_cases hi : i < N
    · rcases h : env.client.SnapshotsFindById w.calls.length id with ⟨snapshot, resp, err⟩
      simp only [if_pos hi, run_bind, run_issue, h]
      rcases err with _ | e
      · obtain ⟨sid, md⟩ := snapshot
        rcases md with _ | ⟨_ | st⟩
        · simp [run_bind]
        · simp [run_bind]
        · rcases resp with _ | r
          · simp [run_bind]
          · by_cases hc : r.StatusCode = 200
            · by_cases ha : st = "AVAILABLE"
              · simp [run_bind, hc, ha]
              · simp only [run_bind, run_deref_some, run_uiSay, hc, ha, if_false, ne_eq,
                  not_true_eq_false]
                exact ih _ _ (by omega) (by push_cast at h2 ⊢; omega)
            · simp [run_bind, hc]
      · simp
    · simp [hi]

/-- The function `waitTillSnapshotAvailable` always returns or panics. -/
theorem waitTillSnapshotAvailable_total (env : Env) (id : String) (config : Config) (w : World) :
    ((waitTillSnapshotAvailable env id config).run w).1 ≠ .outOfFuel := by
  unfold waitTillSnapshotAvailable
  simp only [run_bind, run_uiSay]
  have h := waitTillSnapshotAvailable_loop_total env id
    (if config.Retries > 0 then config.Retries else 50)
    ((if config.Retries > 0 then config.Retries else 50).toNat + 1) 0
    { w with ui := w.ui ++ [.say ("waiting for snapshot " ++ id ++ " to become available")] }
    (by split <;> omega) (by split <;> omega)
  revert h
  generalize (waitTillSnapshotAvailable.loop env id _ _ 0).run _ = r
  rcases r with ⟨_ | _ | _, w1⟩
  · rename_i x
    intro _
    rcases x with _ | d
    · simp
    · cases d <;> simp [run_bind]
  · simp
  · simp

end stepTakeSnapshot

namespace stepCreateServer

theorem waitTillProvisioned_loop_pending (env : Env) (path : String) (N : Int) :
    ∀ (fuel : Nat) (i : Int) (w : World), i ≤ N + 1 → N + 2 - i ≤ 2 * (fuel : Int) →
      (∀ j : Nat, i + 2 * (j : Int) < N → pendingAt env path (w.calls.length + j)) →
      ((waitTillProvisioned.loop env path N fuel i).run w).1 = .ret none := by
  intro fuel
  induction fuel with
  | zero => intro i w h1 h2 _; omega
  | succ fuel ih =>
    intro i w h1 h2 hp
    unfold waitTillProvisioned.loop
    by_cases hi : i < N
    · obtain ⟨s, msg, resp, hs, hd, hf⟩ := hp 0 (by simpa using hi)
      simp only [Nat.add_zero] at hs
      simp [hi, run_bind, hs, hd, hf]
      apply ih
      · omega
      · push_cast at h2 ⊢; omega
      · intro j hj
        have := hp (j + 1) (by push_cast; omega)
        simpa [Nat.add_assoc, Nat.add_comm 1 j] using this
    · simp [hi]

end stepCreateServer

namespace stepTakeSnapshot

theorem waitForRequest_loop_pending (env : Env) (path : String) (N : Int) :
    ∀ (fuel : Nat) (i : Int) (w : World), i ≤ N + 1 → N + 2 - i ≤ 2 * (fuel : Int) →
      (∀ j : Nat, i + 2 * (j : Int) < N → pendingAt env path (w.calls.length + j)) →
      ((waitForRequest.loop env path N fuel i).run w).1 = .ret (.leaves false) := by
  intro fuel
  induction fuel with
  | zero => intro i w h1 h2 _; omega
  | succ fuel ih =>
    intro i w h1 h2 hp
    unfold waitForRequest.loop
    by_cases hi : i < N
    · obtain ⟨s, msg, resp, hs, hd, hf⟩ := hp 0 (by simpa using hi)
      simp only [Nat.add_zero] at hs
      simp [hi, run_bind, hs, hd, hf]
      apply ih
      · omega
      · push_cast at h2 ⊢; omega
      · intro j hj
        have := hp (j + 1) (by push_cast; omega)
        simpa [Nat.add_assoc, Nat.add_comm 1 j] using this
    · simp [hi]

theorem waitTillSnapshotAvailable_loop_busy (env : Env) (id : String) (N : Int) :
    ∀ (fuel : Nat) (i : Int) (w : World), i ≤ N + 1 → N + 2 - i ≤ 2 * (fuel : Int) →
      (∀ j : Nat, i + 2 * (j : Int) < N → notAvailableAt env id (w.calls.length + j)) →
      ((waitTillSnapshotAvailable.loop env id N fuel i).run w).1 = .ret (.leaves false) := by
  intro fuel
  induction fuel with
  | zero => intro i w h1 h2 _; omega
  | succ fuel ih =>
    intro i w h1 h2 hp
    unfold waitTillSnapshotAvailable.loop
    by_cases hi : i < N
    · obtain ⟨sid, st, resp, hs, hc, ha⟩ := hp 0 (by simpa using hi)
      simp only [Nat.add_zero] at hs
      simp [hi, run_bind, hs, hc, ha]
      apply ih
      · omega
      · push_cast at h2 ⊢; omega
      · intro j hj
        have := hp (j + 1) (by push_cast; omega)
        simpa [Nat.add_assoc, Nat.add_comm 1 j] using this
    · simp [hi]

end stepTakeSnapshot

/-- C2: when every status fetch within the retry budget is answered by a
non-terminal status, `stepCreateServer.waitTillProvisioned` returns nil, whereas
`stepTakeSnapshot.waitTillSnapshotAvailable` returns a non-nil error when every
snapshot fetch within its budget has status 200 and a state other than
`AVAILABLE`. -/
theorem exhaustion_is_success_for_provisioning_and_error_for_snapshot
    (env : Env) (config : Config) (path id : String) (w1 w2 : World)
    (hpending : ∀ j : Nat, (j : Int) < (if config.Retries > 0 then config.Retries else 120) →
      pendingAt env path (w1.calls.length + j))
    (hbusy : ∀ j : Nat, (j : Int) < (if config.Retries > 0 then config.Retries else 50) →
      notAvailableAt env id (w2.calls.length + j)) :
    ((stepCreateServer.waitTillProvisioned env path config).run w1).1 = .ret none
    ∧ ∃ e, ((stepTakeSnapshot.waitTillSnapshotAvailable env id config).run w2).1 = .ret (some e) := by
  constructor
  · unfold stepCreateServer.waitTillProvisioned
    apply stepCreateServer.waitTillProvisioned_loop_pending
    · split <;> omega
    · split <;> omega
    · intro j hj
      exact hpending j (by omega)
  · unfold stepTakeSnapshot.waitTillSnapshotAvailable
    have h := stepTakeSnapshot.waitTillSnapshotAvailable_loop_busy env id
      (if config.Retries > 0 then config.Retries else 50)
      ((if config.Retries > 0 then config.Retries else 50).toNat + 1) 0
      { w2 with ui := w2.ui ++ [.say ("waiting for snapshot " ++ id ++ " to become available")] }
      (by split <;> omega) (by split <;> omega) (fun j hj => hbusy j (by omega))
    simp only [run_bind, run_uiSay]
    revert h
    generalize (stepTakeSnapshot.waitTillSnapshotAvailable.loop env id _ _ 0).run _ = r
    intro h
    obtain ⟨r1, r2⟩ := r
    simp only at h
    subst h
    simp

/-- C2 at a concrete input: with a budget of 3 and a provider whose operations
stay `PENDING` and whose snapshot stays `BUSY`. -/
theorem exhaustion_witness :
    ((stepCreateServer.waitTillProvisioned (sampleEnv stuckClient) "/requests/1"
        (sampleConfig 3 "" "" "")).run (freshWorld [])).1 = .ret none
    ∧ ∃ e, ((stepTakeSnapshot.waitTillSnapshotAvailable (sampleEnv stuckClient) "snap-1"
        (sampleConfig 3 "" "" "")).run (freshWorld [])).1 = .ret (some e) :=
  exhaustion_is_success_for_provisioning_and_error_for_snapshot (sampleEnv stuckClient)
    (sampleConfig 3 "" "" "") "/requests/1" "snap-1" (freshWorld []) (freshWorld [])
    (fun _ _ => ⟨"PENDING", some "", some ⟨200, "", ""⟩, rfl, by decide, by decide⟩)
    (fun _ _ => ⟨some "snap-1", "BUSY", ⟨200, "", ""⟩, rfl, rfl, by decide⟩)

/-- C1: with a retry budget of 2 and the statuses `PENDING`, `FAILED` (message
"boom"), so that the first terminal status is `FAILED` at position 2 ≤ 2,
`waitTillProvisioned` returns nil after a single status fetch: the second
status is never fetched. -/
theorem waitTillProvisioned_skips_failed_at_position_two :
    (sampleConfig 2 "" "" "").Retries = 2
    ∧ (scriptedStatusClient [("PENDING", ""), ("FAILED", "boom")]).GetRequestStatus 0 "/requests/1"
        = (some ⟨some ⟨some "PENDING", some ""⟩⟩, some ⟨200, "", ""⟩, none)
    ∧ (scriptedStatusClient [("PENDING", ""), ("FAILED", "boom")]).GetRequestStatus 1 "/requests/1"
        = (some ⟨some ⟨some "FAILED", some "boom"⟩⟩, some ⟨200, "boom", ""⟩, none)
    ∧ (stepCreateServer.waitTillProvisioned
          (sampleEnv (scriptedStatusClient [("PENDING", ""), ("FAILED", "boom")]))
          "/requests/1" (sampleConfig 2 "" "" "")).run (freshWorld [])
        = (.ret none, { state := [], calls := [.GetRequestStatus "/requests/1"], ui := [] }) := by
  decide

/-- The statuses the loop never fetches do not matter: when the fetches of
index `j` with `2 * j` below the budget are non-terminal, `waitTillProvisioned`
returns nil, whatever the later statuses of the sequence are. -/
theorem waitTillProvisioned_ignores_later_statuses (env : Env) (path : String)
    (config : Config) (w : World)
    (hpending : ∀ j : Nat, 2 * (j : Int) < (if config.Retries > 0 then config.Retries else 120) →
      pendingAt env path (w.calls.length + j)) :
    ((stepCreateServer.waitTillProvisioned env path config).run w).1 = .ret none := by
  unfold stepCreateServer.waitTillProvisioned
  apply stepCreateServer.waitTillProvisioned_loop_pending
  · split <;> omega
  · split <;> omega
  · intro j hj
    exact hpending j (by simpa using hj)

/-- The two operation waiters poll in lockstep. From worlds with equally long
traces, the fetches since position `t0` having been non-terminal: when the loop
of `waitTillProvisioned` returns nil, either its last fetch was `DONE` and the
loop of `waitForRequest` leaves with `done` set, or all its fetches were
non-terminal and the loop of `waitForRequest` leaves with `done` unset; when it
returns an error, the loop of `waitForRequest` returns an error or panics. -/
theorem waiter_loops_correspond (env : Env) (path : String) (N : Int) :
    ∀ (fuel : Nat) (i : Int) (wa wb : World), wa.calls.length = wb.calls.length →
      ∀ t0, t0 ≤ wa.calls.length → allFetchesPending env path t0 wa.calls.length →
      ∀ ea wa1,
        (stepCreateServer.waitTillProvisioned.loop env path N fuel i).run wa = (.ret ea, wa1) →
        (ea = none →
          (lastFetchDone env path t0 wa1.calls.length
            ∧ ((stepTakeSnapshot.waitForRequest.loop env path N fuel i).run wb).1
                = .ret (.leaves true))
          ∨ (allFetchesPending env path t0 wa1.calls.length
            ∧ ((stepTakeSnapshot.waitForRequest.loop env path N fuel i).run wb).1
                = .ret (.leaves false)))
        ∧ (∀ e, ea = some e →
          (∃ e1, ((stepTakeSnapshot.waitForRequest.loop env path N fuel i).run wb).1
                = .ret (.returns (some e1)))
          ∨ ∃ r, ((stepTakeSnapshot.waitForRequest.loop env path N fuel i).run wb).1
                = .panic r) := by
  intro fuel
  induction fuel with
  | zero =>
    intro i wa wb _ t0 _ _ ea wa1 ha
    simp [stepCreateServer.waitTillProvisioned.loop] at ha
  | succ fuel ih =>
    intro i wa wb hlen t0 ht0 hprev ea wa1 ha
    unfold stepCreateServer.waitTillProvisioned.loop at ha
    unfold stepTakeSnapshot.waitForRequest.loop
    by_cases hi : i < N
    · rcases h : env.client.GetRequestStatus wb.calls.length path with ⟨status, resp, err⟩
      rw [if_pos hi] at ha
      rw [if_pos hi]
      simp only [run_bind, run_issue, hlen, h] at ha ⊢
      cases err with
      | some e =>
        simp at ha
        refine ⟨fun h0 => ?_, fun e0 _ => Or.inl ⟨e, by simp⟩⟩
        rw [← ha.1] at h0
        exact absurd h0 (by simp)
      | none =>
        cases status with
        | none => simp [run_bind] at ha
        | some st =>
          obtain ⟨md⟩ := st
          cases md with
          | none => simp [run_bind] at ha
          | some md =>
            obtain ⟨s, msg⟩ := md
            cases s with
            | none => simp [run_bind] at ha
            | some s =>
              by_cases hd : s = "DONE"
              · simp [hd, run_bind] at ha
                subst hd
                refine ⟨fun _ => Or.inl ⟨⟨wb.calls.length, msg, resp, by omega, ?_, h⟩, by simp [run_bind]⟩,
                  fun e0 he0 => ?_⟩
                · rw [← ha.2]
                  simp [hlen]
                · rw [← ha.1] at he0
                  exact absurd he0 (by simp)
              · by_cases hf : s = "FAILED"
                · cases msg with
                  | none => simp [hf, run_bind] at ha
                  | some m =>
                    simp [hf, run_bind] at ha
                    refine ⟨fun h0 => ?_, fun e0 _ => ?_⟩
                    · rw [← ha.1] at h0
                      exact absurd h0 (by simp)
                    · cases resp with
                      | none =>
                        exact Or.inr ⟨"invalid memory address or nil pointer dereference",
                          by simp [hf, run_bind]⟩
                      | some r =>
                        exact Or.inl ⟨"request failed: " ++ r.Message, by simp [hf, run_bind]⟩
                · simp only [run_bind, run_deref_some, run_uiSay, hd, hf, if_false] at ha ⊢
                  have hnow : pendingAt env path wb.calls.length := ⟨s, msg, resp, h, hd, hf⟩
                  exact ih _ _ _ (by simp [hlen]) t0 (by simp; omega)
                    (by
                      intro k hk1 hk2
                      simp only [List.length_append, List.length_singleton] at hk2
                      by_cases hk : k < wa.calls.length
                      · exact hprev k hk1 hk
                      · have : k = wb.calls.length := by omega
                        subst this
                        exact hnow)
                    _ _ ha
    · simp [hi] at ha
      refine ⟨fun _ => Or.inr ⟨?_, by simp [hi]⟩, fun e0 he0 => ?_⟩
      · rw [← ha.2]
        exact hprev
      · rw [← ha.1] at he0
        exact absurd he0 (by simp)

/-- When the loop of `waitForRequest` leaves with `done` set, the loop of
`waitTillProvisioned`, run from a world with an equally long trace, returns
nil. -/
theorem waitTillProvisioned_loop_of_done (env : Env) (path : String) (N : Int) :
    ∀ (fuel : Nat) (i : Int) (wa wb : World), wa.calls.length = wb.calls.length →
      ((stepTakeSnapshot.waitForRequest.loop env path N fuel i).run wb).1 = .ret (.leaves true) →
      ((stepCreateServer.waitTillProvisioned.loop env path N fuel i).run wa).1 = .ret none := by
  intro fuel
  induction fuel with
  | zero =>
    intro i wa wb _ hb
    simp [stepTakeSnapshot.waitForRequest.loop] at hb
  | succ fuel ih =>
    intro i wa wb hlen hb
    unfold stepTakeSnapshot.waitForRequest.loop at hb
    unfold stepCreateServer.waitTillProvisioned.loop
    by_cases hi : i < N
    · rcases h : env.client.GetRequestStatus wb.calls.length path with ⟨status, resp, err⟩
      rw [if_pos hi] at hb
      rw [if_pos hi]
      simp only [run_bind, run_issue, hlen, h] at hb ⊢
      cases err with
      | some e => simp at hb
      | none =>
        cases status with
        | none => simp [run_bind] at hb
        | some st =>
          obtain ⟨md⟩ := st
          cases md with
          | none => simp [run_bind] at hb
          | some md =>
            obtain ⟨s, msg⟩ := md
            cases s with
            | none => simp [run_bind] at hb
            | some s =>
              by_cases hd : s = "DONE"
              · simp [hd, run_bind]
              · by_cases hf : s = "FAILED"
                · cases resp <;> simp [hf, run_bind] at hb
                · simp only [run_bind, run_deref_some, run_uiSay, hd, hf, if_false] at hb ⊢
                  exact ih _ _ _ (by simp [hlen]) hb
    · simp [hi] at hb

/-- A `return` inside the loop of `waitForRequest` returns an error. -/
theorem waitForRequest_loop_returns_error (env : Env) (path : String) (N : Int) :
    ∀ (fuel : Nat) (i : Int) (wb : World),
      ((stepTakeSnapshot.waitForRequest.loop env path N fuel i).run wb).1
        ≠ .ret (.returns none) := by
  intro fuel
  induction fuel with
  | zero =>
    intro i wb
    simp [stepTakeSnapshot.waitForRequest.loop]
  | succ fuel ih =>
    intro i wb
    unfold stepTakeSnapshot.waitForRequest.loop
    by_cases hi : i < N
    · rcases h : env.client.GetRequestStatus wb.calls.length path with ⟨status, resp, err⟩
      rw [if_pos hi]
      simp only [run_bind, run_issue, h]
      cases err with
      | some e => simp
      | none =>
        cases status with
        | none => simp [run_bind]
        | some st =>
          obtain ⟨md⟩ := st
          cases md with
          | none => simp [run_bind]
          | some md =>
            obtain ⟨s, msg⟩ := md
            cases s with
            | none => simp [run_bind]
            | some s =>
              by_cases hd : s = "DONE"
              · simp [hd, run_bind]
              · by_cases hf : s = "FAILED"
                · cases resp <;> simp [hf, run_bind]
                · simp only [run_bind, run_deref_some, run_uiSay, hd, hf, if_false]
                  exact ih _ _
    · simp [hi]

/-- C3 (counterexample): with a retry budget of 1 and a provider whose
operation stays `PENDING`, `waitTillProvisioned` returns nil but
`waitForRequest` returns an error. -/
theorem waitForRequest_fails_where_waitTillProvisioned_succeeds :
    ((stepCreateServer.waitTillProvisioned (sampleEnv stuckClient) "/requests/1"
        (sampleConfig 1 "" "" "")).run (freshWorld [])).1 = .ret none
    ∧ ((stepTakeSnapshot.waitForRequest (sampleEnv stuckClient) "/requests/1"
        (sampleConfig 1 "" "" "")).run (freshWorld [])).1
      = .ret (some "request not fulfilled after waiting 10 seconds") := by
  decide

/-- C3 (amended): with the same positive retry budget and the same status
fetch results, `waitForRequest` returns success exactly when
`waitTillProvisioned` returns success, except on retry exhaustion. Whenever
`waitTillProvisioned` returns nil, either the last status it fetched is `DONE`
and `waitForRequest` returns nil, or every status it fetched is non-terminal and
`waitForRequest` returns its retry-exhaustion error. Whenever
`waitTillProvisioned` returns an error, `waitForRequest` returns an error or
panics. Whenever `waitForRequest` returns nil, so does `waitTillProvisioned`.
When every status fetch within the budget is answered by a non-terminal status,
`waitTillProvisioned` returns nil and `waitForRequest` returns that error. -/
theorem waitForRequest_agrees_up_to_exhaustion (env : Env) (path : String) (config : Config)
    (w : World) (hpos : 0 < config.Retries) :
    (∀ ea wa,
      (stepCreateServer.waitTillProvisioned env path config).run w = (.ret ea, wa) →
      (ea = none →
        (lastFetchDone env path w.calls.length wa.calls.length
          ∧ ((stepTakeSnapshot.waitForRequest env path config).run w).1 = .ret none)
        ∨ (allFetchesPending env path w.calls.length wa.calls.length
          ∧ ((stepTakeSnapshot.waitForRequest env path config).run w).1
            = .ret (some ("request not fulfilled after waiting "
                ++ toString (stepTakeSnapshot.waitedSeconds config.Retries) ++ " seconds"))))
      ∧ (∀ e, ea = some e →
        (∃ e1, ((stepTakeSnapshot.waitForRequest env path config).run w).1 = .ret (some e1))
        ∨ ∃ r, ((stepTakeSnapshot.waitForRequest env path config).run w).1 = .panic r))
    ∧ (((stepTakeSnapshot.waitForRequest env path config).run w).1 = .ret none →
        ((stepCreateServer.waitTillProvisioned env path config).run w).1 = .ret none)
    ∧ ((∀ j : Nat, (j : Int) < config.Retries → pendingAt env path (w.calls.length + j)) →
      ((stepCreateServer.waitTillProvisioned env path config).run w).1 = .ret none
      ∧ ((stepTakeSnapshot.waitForRequest env path config).run w).1
        = .ret (some ("request not fulfilled after waiting "
          ++ toString (stepTakeSnapshot.waitedSeconds config.Retries) ++ " seconds"))) := by
  have hgt : config.Retries > 0 := hpos
  have hrun : ∀ r : Res stepTakeSnapshot.LoopExit × World,
      (stepTakeSnapshot.waitForRequest.loop env path config.Retries
        (config.Retries.toNat + 1) 0).run
        { w with ui := w.ui ++ [.say ("Watching request " ++ path)] } = r →
      ((stepTakeSnapshot.waitForRequest env path config).run w).1
        = match r.1 with
          | .ret (.returns err) => .ret err
          | .ret (.leaves true) => .ret none
          | .ret (.leaves false) => .ret (some ("request not fulfilled after waiting "
              ++ toString (stepTakeSnapshot.waitedSeconds config.Retries) ++ " seconds"))
          | .panic r => .panic r
          | .outOfFuel => .outOfFuel := by
    intro r hr
    unfold stepTakeSnapshot.waitForRequest
    simp only [if_pos hgt, run_bind, run_uiSay, hr]
    rcases r with ⟨_ | _ | _, w1⟩
    · rename_i x
      rcases x with _ | d
      · simp
      · cases d <;> simp
    · simp
    · simp
  refine ⟨?_, ?_, ?_⟩
  · intro ea wa ha
    unfold stepCreateServer.waitTillProvisioned at ha
    simp only [if_pos hgt] at ha
    have h := waiter_loops_correspond env path config.Retries _ 0 w
      { w with ui := w.ui ++ [.say ("Watching request " ++ path)] } rfl w.calls.length
      (Nat.le_refl _) (fun k h1 h2 => absurd h2 (by omega)) ea wa ha
    refine ⟨fun h0 => ?_, fun e he => ?_⟩
    · rcases h.1 h0 with ⟨h1, h2⟩ | ⟨h1, h2⟩
      · refine Or.inl ⟨h1, ?_⟩
        rw [hrun _ rfl, h2]
      · refine Or.inr ⟨h1, ?_⟩
        rw [hrun _ rfl, h2]
    · rcases h.2 e he with ⟨e1, h2⟩ | ⟨r, h2⟩
      · exact Or.inl ⟨e1, by rw [hrun _ rfl, h2]⟩
      · exact Or.inr ⟨r, by rw [hrun _ rfl, h2]⟩
  · intro hb
    unfold stepCreateServer.waitTillProvisioned
    simp only [if_pos hgt]
    apply waitTillProvisioned_loop_of_done env path config.Retries _ 0 w
      { w with ui := w.ui ++ [.say ("Watching request " ++ path)] } rfl
    rw [hrun _ rfl] at hb
    have hne := waitForRequest_loop_returns_error env path config.Retries
      (config.Retries.toNat + 1) 0 { w with ui := w.ui ++ [.say ("Watching request " ++ path)] }
    revert hb hne
    generalize (stepTakeSnapshot.waitForRequest.loop env path _ _ 0).run _ = r
    rcases r with ⟨_ | _ | _, w1⟩
    · rename_i x
      rcases x with e | d
      · cases e <;> simp
      · cases d <;> simp
    · simp
    · simp
  · intro hp
    constructor
    · unfold stepCreateServer.waitTillProvisioned
      simp only [if_pos hgt]
      exact stepCreateServer.waitTillProvisioned_loop_pending env path _ _ 0 w (by omega) (by omega)
        (fun j hj => hp j (by omega))
    · have h := stepTakeSnapshot.waitForRequest_loop_pending env path config.Retries
        (config.Retries.toNat + 1) 0
        { w with ui := w.ui ++ [.say ("Watching request " ++ path)] }
        (by omega) (by omega) (fun j hj => hp j (by omega))
      rw [hrun _ rfl, h]

/-- C3 (amended) at concrete inputs, budget 1: an operation that is always
`PENDING` (nil against the exhaustion error) and an operation that is `DONE` at
the first fetch (`waitForRequest` returns nil as `waitTillProvisioned` does). -/
theorem waitForRequest_agrees_up_to_exhaustion_witness :
    (0 : Int) < (sampleConfig 1 "" "" "").Retries
    ∧ (((stepCreateServer.waitTillProvisioned (sampleEnv stuckClient) "/requests/1"
          (sampleConfig 1 "" "" "")).run (freshWorld [])).1 = .ret none
      ∧ ((stepTakeSnapshot.waitForRequest (sampleEnv stuckClient) "/requests/1"
          (sampleConfig 1 "" "" "")).run (freshWorld [])).1
        = .ret (some ("request not fulfilled after waiting "
            ++ toString (stepTakeSnapshot.waitedSeconds (sampleConfig 1 "" "" "").Retries)
            ++ " seconds")))
    ∧ ((stepCreateServer.waitTillProvisioned (sampleEnv healthyClient) "/requests/1"
          (sampleConfig 1 "" "" "")).run (freshWorld [])
        = (.ret none, { state := [], calls := [.GetRequestStatus "/requests/1"], ui := [] }))
    ∧ ((stepTakeSnapshot.waitForRequest (sampleEnv healthyClient) "/requests/1"
          (sampleConfig 1 "" "" "")).run (freshWorld [])).1 = .ret none := by
  refine ⟨by decide, ?_, rfl, ?_⟩
  · exact (waitForRequest_agrees_up_to_exhaustion (sampleEnv stuckClient) "/requests/1"
      (sampleConfig 1 "" "" "") (freshWorld []) (by decide)).2.2
      (fun _ _ => ⟨"PENDING", some "", some ⟨200, "", ""⟩, rfl, by decide, by decide⟩)
  · rcases ((waitForRequest_agrees_up_to_exhaustion (sampleEnv healthyClient) "/requests/1"
      (sampleConfig 1 "" "" "") (freshWorld []) (by decide)).1 none
      { state := [], calls := [.GetRequestStatus "/requests/1"], ui := [] } rfl).1 rfl
      with ⟨_, h⟩ | ⟨hp, _⟩
    · exact h
    · obtain ⟨s, msg, resp, heq, hd, _⟩ := hp 0 (Nat.le_refl _) (by decide)
      simp [sampleEnv, healthyClient] at heq
      exact absurd heq.1.1.symm hd

namespace stepCreateServer

theorem firstMatchingImageId_cons (env : Env) (imageName : String) (c : Config)
    (img : Image) (rest : List Image) :
    firstMatchingImageId env imageName c (img :: rest)
      = if imageMatches env imageName c img = true then img.Id.getD ""
        else firstMatchingImageId env imageName c rest := by
  unfold firstMatchingImageId
  rw [List.find?_cons]
  cases h : imageMatches env imageName c img <;> simp

theorem getImageId_loop_eq (env : Env) (imageName : String) (c : Config) :
    ∀ (items : List Image) (w : World), (∀ img ∈ items, img.populated = true) →
      (getImageId.loop env imageName c items).run w
        = (.ret (firstMatchingImageId env imageName c items, none), w) := by
  intro items
  induction items with
  | nil => intro w _; rfl
  | cons img rest ih =>
    intro w hpop
    have hrest : ∀ x ∈ rest, x.populated = true := fun x hx => hpop x (List.mem_cons_of_mem _ hx)
    have himg := hpop img (List.mem_cons_self _ _)
    rw [firstMatchingImageId_cons]
    obtain ⟨id, props⟩ := img
    cases id with
    | none => simp [Image.populated] at himg
    | some id =>
      cases props with
      | none => simp [Image.populated] at himg
      | some props =>
        obtain ⟨name, ty, loc, pub⟩ := props
        cases name with
        | none => simp [Image.populated] at himg
        | some name =>
          cases ty with
          | none => simp [Image.populated] at himg
          | some ty =>
            cases loc with
            | none => simp [Image.populated] at himg
            | some loc =>
              cases pub with
              | none => simp [Image.populated] at himg
              | some pub =>
                unfold getImageId.loop
                simp only [run_bind, run_deref_some]
                by_cases h1 : name = ""
                · simp [imageMatches, h1, ih _ hrest]
                · by_cases h2 : Contains (env.ToLower name) (env.ToLower imageName) = true
                  · by_cases h3 : ty = searchedImageType c.DiskType
                    · by_cases h4 : loc = c.Region
                      · subst h3 h4
                        cases pub
                        · simp [imageMatches, h1, h2, ih _ hrest, run_bind, searchedImageType]
                        · simp [imageMatches, h1, h2, run_bind, searchedImageType]
                      · subst h3
                        simp [imageMatches, h1, h2, h4, ih _ hrest, run_bind, searchedImageType]
                    · have h3a : ¬ ty = if c.DiskType = "SSD" then "HDD" else c.DiskType := h3
                      simp [imageMatches, h1, h2, h3, h3a, ih _ hrest, run_bind]
                  · simp [imageMatches, h1, h2, ih _ hrest]

end stepCreateServer

/-- C4 (counterexample): for a requested disk type other than `SSD` the code
searches the requested type itself, not `SSD`: with the catalog
["Ubuntu-20.04", HDD, public, de/txl] the request ("ubuntu", HDD, de/txl)
returns the image although its type is not `SSD`; and an image with an empty
name is never selected, although the empty name contains the empty requested
name. -/
theorem getImageId_differs_from_claimed_search :
    ((stepCreateServer.getImageId (sampleEnv healthyClient) "ubuntu"
        (sampleConfig 0 "ubuntu" "HDD" "de/txl")).run (freshWorld [])).1 = .ret ("img-1", none)
    ∧ claimedImageId (sampleEnv healthyClient) "ubuntu" (sampleConfig 0 "ubuntu" "HDD" "de/txl")
        [{ Id := some "img-1"
           Properties := some { Name := some "Ubuntu-20.04", ImageType := some "HDD",
                                Location := some "de/txl", Public := some true } }] = ""
    ∧ ((stepCreateServer.getImageId
          (sampleEnv { healthyClient with ImagesGet := fun _ => (catalogOf "img-0" "", some ⟨200, "", ""⟩, none) })
          "" (sampleConfig 0 "" "SSD" "de/txl")).run (freshWorld [])).1 = .ret ("", none)
    ∧ claimedImageId (sampleEnv healthyClient) "" (sampleConfig 0 "" "SSD" "de/txl")
        [{ Id := some "img-0"
           Properties := some { Name := some "", ImageType := some "HDD",
                                Location := some "de/txl", Public := some true } }] = "img-0" := by
  decide

/-- C4 (amended): when the list call succeeds and the catalog images carry all
their fields, `getImageId` issues the one list call and returns, with no error,
the identifier of the first catalog image, in list order, whose name is not
empty and case-insensitively contains the requested name, whose image type is
`HDD` when the requested disk type is `SSD` and the requested disk type itself
otherwise, whose location is the region and whose public flag is set; it
returns the empty string when there is no such image. -/
theorem getImageId_returns_first_matching_image (env : Env) (imageName : String) (c : Config)
    (w : World) (images : Images) (resp : APIResponse) (items : List Image)
    (hlist : env.client.ImagesGet w.calls.length = (images, some resp, none))
    (hstatus : resp.StatusCode ≤ 299)
    (hitems : images.Items = some items)
    (hpop : ∀ img ∈ items, img.populated = true) :
    (stepCreateServer.getImageId env imageName c).run w
      = (.ret (firstMatchingImageId env imageName c items, none),
         { w with calls := w.calls ++ [.ImagesGet] }) := by
  unfold stepCreateServer.getImageId
  have hs : ¬ resp.StatusCode > 299 := by omega
  simp only [run_bind, run_issue, hlist, run_deref_some, if_neg hs, hitems]
  exact stepCreateServer.getImageId_loop_eq env imageName c items _ hpop

/-- C4 (amended) at the inputs of the claim: the catalog
["Ubuntu-20.04", HDD, public, de/txl] and the request ("ubuntu", SSD, de/txl)
give the image's identifier; the same request for region de/fra gives the
empty string. -/
theorem getImageId_witness :
    ((stepCreateServer.getImageId (sampleEnv healthyClient) "ubuntu"
        (sampleConfig 0 "ubuntu" "SSD" "de/txl")).run (freshWorld [])
      = (.ret ("img-1", none), { state := [], calls := [.ImagesGet], ui := [] }))
    ∧ ((stepCreateServer.getImageId (sampleEnv healthyClient) "ubuntu"
        (sampleConfig 0 "ubuntu" "SSD" "de/fra")).run (freshWorld [])
      = (.ret ("", none), { state := [], calls := [.ImagesGet], ui := [] })) :=
  ⟨getImageId_returns_first_matching_image (sampleEnv healthyClient) "ubuntu"
      (sampleConfig 0 "ubuntu" "SSD" "de/txl") (freshWorld []) (catalogOf "img-1" "Ubuntu-20.04")
      ⟨200, "", ""⟩ _ rfl (by decide) rfl (by decide),
   getImageId_returns_first_matching_image (sampleEnv healthyClient) "ubuntu"
      (sampleConfig 0 "ubuntu" "SSD" "de/fra") (freshWorld []) (catalogOf "img-1" "Ubuntu-20.04")
      ⟨200, "", ""⟩ _ rfl (by decide) rfl (by decide)⟩

namespace stepCreateServer

/-- The loop of `waitTillProvisioned` leaves the state bag and the UI alone and
issues status fetches for its path only. -/
theorem waitTillProvisioned_loop_frame (env : Env) (path : String) (N : Int) :
    ∀ (fuel : Nat) (i : Int) (w : World),
      ((waitTillProvisioned.loop env path N fuel i).run w).2.state = w.state
      ∧ ((waitTillProvisioned.loop env path N fuel i).run w).2.ui = w.ui
      ∧ ∃ k, ((waitTillProvisioned.loop env path N fuel i).run w).2.calls
          = w.calls ++ List.replicate k (.GetRequestStatus path) := by
  intro fuel
  induction fuel with
  | zero =>
    intro i w
    exact ⟨rfl, rfl, 0, by simp [waitTillProvisioned.loop]⟩
  | succ fuel ih =>
    intro i w
    unfold waitTillProvisioned.loop
    by_cases hi : i < N
    · rcases h : env.client.GetRequestStatus w.calls.length path with ⟨status, resp, err⟩
      simp only [if_pos hi, run_bind, run_issue, h]
      rcases err with _ | e
      · rcases status with _ | ⟨_ | ⟨_ | s, msg⟩⟩
        · exact ⟨by simp [run_bind], by simp [run_bind], 1, by simp [run_bind]⟩
        · exact ⟨by simp [run_bind], by simp [run_bind], 1, by simp [run_bind]⟩
        · exact ⟨by simp [run_bind], by simp [run_bind], 1, by simp [run_bind]⟩
        · by_cases hd : s = "DONE"
          · simp only [run_bind, run_deref_some, hd, if_true, run_pure]
            exact ⟨by simp [run_bind], by simp [run_bind], 1, by simp [run_bind]⟩
          · by_cases hf : s = "FAILED"
            · rcases msg with _ | m
              · simp only [run_bind, run_deref_some, hd, hf, if_false, if_true, run_bind, run_deref_none]
                exact ⟨by simp [run_bind], by simp [run_bind], 1, by simp [run_bind]⟩
              · simp only [run_bind, run_deref_some, hd, hf, if_false, if_true, run_bind, run_pure]
                exact ⟨by simp [run_bind], by simp [run_bind], 1, by simp [run_bind]⟩
            · simp only [run_bind, run_deref_some, hd, hf, if_false]
              obtain ⟨h1, h2, k, h3⟩ := ih (i + 1 + 1)
                { w with calls := w.calls ++ [.GetRequestStatus path] }
              refine ⟨h1, h2, k + 1, ?_⟩
              rw [h3]
              simp [List.replicate_succ]
      · exact ⟨by simp [run_bind], by simp [run_bind], 1, by simp [run_bind]⟩
    · simp only [if_neg hi, run_pure]
      exact ⟨by simp, by simp, 0, by simp⟩

theorem waitTillProvisioned_frame (env : Env) (path : String) (config : Config) (w : World) :
    ((waitTillProvisioned env path config).run w).2.state = w.state
    ∧ ((waitTillProvisioned env path config).run w).2.ui = w.ui
    ∧ ∃ k, ((waitTillProvisioned env path config).run w).2.calls
        = w.calls ++ List.replicate k (.GetRequestStatus path) :=
  waitTillProvisioned_loop_frame env path _ _ 0 w

end stepCreateServer

/-- C6: in a state bag holding the configuration and the UI, `Cleanup` issues
the container delete call for the recorded identifier once, followed only by
status fetches, when `datacenter_id` holds a string; it issues no call when
`datacenter_id` is absent. -/
theorem Cleanup_issues_one_datacenter_delete (env : Env) (w : World) (c : Config)
    (hcfg : w.state.lookup "config" = some (.config c))
    (hui : w.state.lookup "ui" = some .ui) :
    (∀ id, w.state.lookup "datacenter_id" = some (.string id) →
      ∃ polls, ((stepCreateServer.Cleanup env).run w).2.calls
          = w.calls ++ .DatacentersDelete id :: polls
        ∧ ∀ call ∈ polls, ∃ path, call = .GetRequestStatus path)
    ∧ (w.state.lookup "datacenter_id" = none →
        (stepCreateServer.Cleanup env).run w
          = (.ret (), { w with ui := w.ui ++ [.say "Removing Virtual Data Center..."] })) := by
  constructor
  · intro id hdc
    unfold stepCreateServer.Cleanup
    simp only [run_bind, run_stateGet, hcfg, hui, hdc, stepCreateServer.assertConfig,
      stepCreateServer.assertUi, stepCreateServer.assertString, run_pure, run_uiSay, run_issue]
    rcases env.client.DatacentersDelete w.calls.length id with ⟨resp, err⟩
    cases resp with
    | none =>
      refine ⟨[], ?_, by simp⟩
      cases err <;> simp [run_bind, stepCreateServer.checkForErrors]
    | some r =>
      by_cases hs : r.StatusCode > 299 <;> cases err <;>
        simp only [run_bind, stepCreateServer.checkForErrors, run_deref_some, hs, if_true, if_false,
          run_pure, run_uiError] <;>
        generalize hres : (stepCreateServer.waitTillProvisioned env r.Location c).run _ = res <;>
        (obtain ⟨k, hk⟩ : ∃ k, res.2.calls = (w.calls ++ [.DatacentersDelete id])
            ++ List.replicate k (.GetRequestStatus r.Location) := by
          rw [← hres]
          exact (stepCreateServer.waitTillProvisioned_frame env r.Location c _).2.2) <;>
        refine ⟨List.replicate k (.GetRequestStatus r.Location), ?_,
          fun call hcall => ⟨_, (List.mem_replicate.mp hcall).2⟩⟩ <;>
        rcases res with ⟨_ | _ | _, w3⟩ <;>
        first
        | (rename_i a; cases a <;> simpa using hk)
        | simpa using hk
  · intro hdc
    unfold stepCreateServer.Cleanup
    simp [run_bind, hcfg, hui, hdc, stepCreateServer.assertConfig, stepCreateServer.assertUi]

/-- C6 at concrete inputs: a bag recording the string "dc-1" and a bag without
`datacenter_id`, against a healthy provider. -/
theorem Cleanup_witness :
    (∃ polls, ((stepCreateServer.Cleanup (sampleEnv healthyClient)).run
          (freshWorld (("datacenter_id", .string "dc-1") :: sampleBag (sampleConfig 0 "" "" "")))).2.calls
        = [] ++ .DatacentersDelete "dc-1" :: polls
      ∧ ∀ call ∈ polls, ∃ path, call = .GetRequestStatus path)
    ∧ (stepCreateServer.Cleanup (sampleEnv healthyClient)).run
          (freshWorld (sampleBag (sampleConfig 0 "" "" "")))
        = (.ret (), { state := sampleBag (sampleConfig 0 "" "" ""), calls := [],
                      ui := [.say "Removing Virtual Data Center..."] }) :=
  ⟨(Cleanup_issues_one_datacenter_delete (sampleEnv healthyClient)
      (freshWorld (("datacenter_id", .string "dc-1") :: sampleBag (sampleConfig 0 "" "" "")))
      (sampleConfig 0 "" "" "") rfl rfl).1 "dc-1" rfl,
   (Cleanup_issues_one_datacenter_delete (sampleEnv healthyClient)
      (freshWorld (sampleBag (sampleConfig 0 "" "" ""))) (sampleConfig 0 "" "" "") rfl rfl).2 rfl⟩

/-- C7: when the container delete call returns an error and no response
object, `Cleanup` reports the error and then panics on the nil response in
`checkForErrors`. -/
theorem Cleanup_panics_on_absent_response :
    (stepCreateServer.Cleanup (sampleEnv unreachableDeleteClient)).run
        (freshWorld (("datacenter_id", .string "dc-1") :: sampleBag (sampleConfig 0 "" "" "")))
      = (.panic "invalid memory address or nil pointer dereference",
         { state := ("datacenter_id", .string "dc-1") :: sampleBag (sampleConfig 0 "" "" "")
           calls := [.DatacentersDelete "dc-1"]
           ui := [.say "Removing Virtual Data Center...",
                  .error "Error deleting Virtual Data Center. Please destroy it manually: connection refused"] }) := by
  decide

section appends

variable {α β : Type} {A : Call → Prop}

theorem appends_of_silent {x : Go α} (h : ∀ w, (x.run w).2.calls = w.calls) : Appends A x :=
  ⟨fun w => ⟨[], by simp [h w], by simp⟩⟩

theorem appends_pure (a : α) : Appends A (Pure.pure a : Go α) :=
  appends_of_silent (fun _ => rfl)

theorem appends_goPanic (r : String) : Appends A (Ionoscloud.goPanic r : Go α) :=
  appends_of_silent (fun _ => rfl)

theorem appends_goOutOfFuel : Appends A (Ionoscloud.goOutOfFuel : Go α) :=
  appends_of_silent (fun _ => rfl)

theorem appends_deref (p : Option α) : Appends A (Ionoscloud.deref p) := by
  cases p
  · exact appends_of_silent (fun _ => rfl)
  · exact appends_of_silent (fun _ => rfl)

theorem appends_index (xs : List α) (i : Nat) : Appends A (Ionoscloud.index xs i) := by
  unfold Ionoscloud.index
  cases xs.get? i
  · exact appends_of_silent (fun _ => rfl)
  · exact appends_of_silent (fun _ => rfl)

theorem appends_uiSay (s : String) : Appends A (Ionoscloud.uiSay s) :=
  appends_of_silent (fun _ => rfl)

theorem appends_uiError (s : String) : Appends A (Ionoscloud.uiError s) :=
  appends_of_silent (fun _ => rfl)

theorem appends_stateGet (k : String) : Appends A (Ionoscloud.stateGet k) :=
  appends_of_silent (fun _ => rfl)

theorem appends_statePut (k : String) (v : Value) : Appends A (Ionoscloud.statePut k v) :=
  appends_of_silent (fun _ => rfl)

theorem appends_issue (c : Call) (answer : Nat → α) (h : A c) : Appends A (Ionoscloud.issue c answer) :=
  ⟨fun w => ⟨[c], rfl, by simpa using h⟩⟩

theorem appends_bind {x : Go α} {f : α → Go β} (hx : Appends A x) (hf : ∀ a, Appends A (f a)) :
    Appends A (x >>= f) := by
  constructor
  intro w
  obtain ⟨cs, h1, h2⟩ := hx.out w
  rw [run_bind]
  rcases hr : x.run w with ⟨_ | _ | _, w1⟩
  · rename_i a
    rw [hr] at h1
    obtain ⟨cs', h3, h4⟩ := (hf a).out w1
    refine ⟨cs ++ cs', ?_, ?_⟩
    · simp only [h3]
      simp only at h1
      rw [h1, List.append_assoc]
    · intro call hc
      rcases List.mem_append.mp hc with h | h
      · exact h2 call h
      · exact h4 call h
  · rw [hr] at h1
    exact ⟨cs, h1, h2⟩
  · rw [hr] at h1
    exact ⟨cs, h1, h2⟩

end appends

namespace stepTakeSnapshot

theorem getOs_appends {A : Call → Prop} (env : Env) (dcId serverId : String)
    (h1 : ∀ a b, A (.DatacentersServersFindById a b))
    (h2 : ∀ a b, A (.DatacentersVolumesFindById a b)) :
    Appends A (getOs env dcId serverId) := by
  unfold getOs
  repeat' first
    | apply appends_bind
    | apply appends_pure
    | apply appends_deref
    | exact appends_issue _ _ (h1 _ _)
    | exact appends_issue _ _ (h2 _ _)
    | intro _
    | split

end stepTakeSnapshot

namespace stepCreateServer

variable {A : Call → Prop}

theorem waitTillProvisioned_appends (env : Env) (path : String) (config : Config)
    (h : A (.GetRequestStatus path)) : Appends A (waitTillProvisioned env path config) := by
  constructor
  intro w
  obtain ⟨k, hk⟩ := (waitTillProvisioned_frame env path config w).2.2
  exact ⟨_, hk, fun call hc => (List.mem_replicate.mp hc).2 ▸ h⟩

theorem assertConfig_appends (v : Option Value) : Appends A (assertConfig v) := by
  unfold assertConfig
  repeat' first
    | apply appends_pure
    | apply appends_goPanic
    | split

theorem assertUi_appends (v : Option Value) : Appends A (assertUi v) := by
  unfold assertUi
  repeat' first
    | apply appends_pure
    | apply appends_goPanic
    | split

theorem getImageId_loop_appends (env : Env) (imageName : String) (c : Config) :
    ∀ items : List Image, Appends A (getImageId.loop env imageName c items) := by
  intro items
  induction items with
  | nil => exact appends_pure _
  | cons img rest ih =>
    unfold getImageId.loop
    repeat' first
      | exact ih
      | apply appends_bind
      | apply appends_pure
      | apply appends_deref
      | intro _
      | dsimp only
      | split

theorem getImageId_appends (env : Env) (imageName : String) (c : Config) (h : A .ImagesGet) :
    Appends A (getImageId env imageName c) := by
  unfold getImageId
  repeat' first
    | exact getImageId_loop_appends env imageName c _
    | exact appends_issue _ _ h
    | apply appends_bind
    | apply appends_pure
    | apply appends_deref
    | intro _
    | split

theorem getImageAlias_outer_appends (env : Env) (imageAlias : String) :
    ∀ items : List Location, Appends A (getImageAlias.outer env imageAlias items) := by
  intro items
  induction items with
  | nil => exact appends_pure _
  | cons loc rest ih =>
    unfold getImageAlias.outer
    repeat' first
      | exact ih
      | apply appends_bind
      | apply appends_pure
      | apply appends_deref
      | intro _
      | split

theorem getImageAlias_appends (env : Env) (imageAlias location : String)
    (h : A (.LocationsFindByRegionId location)) :
    Appends A (getImageAlias env imageAlias location) := by
  unfold getImageAlias
  repeat' first
    | exact getImageAlias_outer_appends env imageAlias _
    | exact appends_issue _ _ h
    | apply appends_bind
    | apply appends_pure
    | apply appends_deref
    | intro _
    | split

theorem parseErrorMessage_inner_appends :
    ∀ (fields : List (String × JsonValue)) (toreturn : String),
      Appends A (parseErrorMessage.inner toreturn fields) := by
  intro fields
  induction fields with
  | nil => intro t; exact appends_pure _
  | cons kv rest ih =>
    intro t
    obtain ⟨k, v⟩ := kv
    unfold parseErrorMessage.inner
    repeat' first
      | exact ih _
      | apply appends_pure
      | apply appends_goPanic
      | split

theorem parseErrorMessage_outer_appends :
    ∀ (items : List JsonValue) (toreturn : String),
      Appends A (parseErrorMessage.outer toreturn items) := by
  intro items
  induction items with
  | nil => intro t; exact appends_pure _
  | cons v rest ih =>
    intro t
    unfold parseErrorMessage.outer
    repeat' first
      | exact ih _
      | exact parseErrorMessage_inner_appends _ _
      | apply appends_bind
      | apply appends_goPanic
      | intro _
      | split

theorem parseErrorMessage_appends (env : Env) (raw : String) :
    Appends A (parseErrorMessage env raw) := by
  unfold parseErrorMessage
  repeat' first
    | exact parseErrorMessage_outer_appends _ _
    | apply appends_pure
    | apply appends_goPanic
    | split

end stepCreateServer

namespace stepTakeSnapshot

variable {A : Call → Prop}

theorem waitForRequest_loop_appends (env : Env) (path : String) (N : Int)
    (h : A (.GetRequestStatus path)) :
    ∀ (fuel : Nat) (i : Int), Appends A (waitForRequest.loop env path N fuel i) := by
  intro fuel
  induction fuel with
  | zero => intro i; exact appends_goOutOfFuel
  | succ fuel ih =>
    intro i
    unfold waitForRequest.loop
    repeat' first
      | exact ih _
      | exact appends_issue _ _ h
      | apply appends_bind
      | apply appends_pure
      | apply appends_deref
      | apply appends_uiSay
      | intro _
      | split

theorem waitForRequest_appends (env : Env) (path : String) (config : Config)
    (h : A (.GetRequestStatus path)) : Appends A (waitForRequest env path config) := by
  unfold waitForRequest
  repeat' first
    | exact waitForRequest_loop_appends env path _ h _ _
    | apply appends_bind
    | apply appends_pure
    | apply appends_uiSay
    | intro _
    | split

theorem waitTillSnapshotAvailable_loop_appends (env : Env) (id : String) (N : Int)
    (h : A (.SnapshotsFindById id)) :
    ∀ (fuel : Nat) (i : Int), Appends A (waitTillSnapshotAvailable.loop env id N fuel i) := by
  intro fuel
  induction fuel with
  | zero => intro i; exact appends_goOutOfFuel
  | succ fuel ih =>
    intro i
    unfold waitTillSnapshotAvailable.loop
    repeat' first
      | exact ih _
      | exact appends_issue _ _ h
      | apply appends_bind
      | apply appends_pure
      | apply appends_deref
      | apply appends_uiSay
      | intro _
      | split

theorem waitTillSnapshotAvailable_appends (env : Env) (id : String) (config : Config)
    (h : A (.SnapshotsFindById id)) : Appends A (waitTillSnapshotAvailable env id config) := by
  unfold waitTillSnapshotAvailable
  repeat' first
    | exact waitTillSnapshotAvailable_loop_appends env id _ h _ _
    | apply appends_bind
    | apply appends_pure
    | apply appends_uiSay
    | intro _
    | split

end stepTakeSnapshot

/-- A call followed by a computation: the trace grows by that call and by
what the computation appends. -/
theorem issue_bind_calls {α β : Type} {A : Call → Prop} (c : Call) (answer : Nat → α)
    (f : α → Go β) (hf : ∀ a, Appends A (f a)) (w : World) :
    ∃ rest, ((issue c answer >>= f).run w).2.calls = w.calls ++ c :: rest
      ∧ ∀ call ∈ rest, A call := by
  rw [run_bind, run_issue]
  obtain ⟨cs, h1, h2⟩ := (hf (answer w.calls.length)).out { w with calls := w.calls ++ [c] }
  exact ⟨cs, by simp [h1], h2⟩

namespace stepTakeSnapshot

theorem Run_createSnapshot_calls (env : Env) (c : Config) (dcId volumeId : String) (w : World) :
    ∃ rest, ((Run.createSnapshot env c dcId volumeId).run w).2.calls
        = w.calls ++ .DatacentersVolumesCreateSnapshotPost dcId volumeId :: rest
      ∧ ∀ call ∈ rest, ∀ cmd, call ≠ .CommunicatorStart cmd := by
  unfold Run.createSnapshot
  apply issue_bind_calls
  intro a
  repeat' first
    | exact waitForRequest_appends env _ c (by simp)
    | exact waitTillSnapshotAvailable_appends env _ c (by simp)
    | apply appends_bind
    | apply appends_pure
    | apply appends_deref
    | apply appends_uiError
    | apply appends_uiSay
    | apply appends_statePut
    | intro _
    | split

end stepTakeSnapshot

/-- C9: in a state bag holding UI, configuration, the three identifiers as
strings and a communicator, when `getOs` returns the licence type `os`:
`getOs` itself runs no guest command; if `os` is "linux" up to case, the next
call is the guest command "sync", and when that command fails to start or
exits non-zero `Run` returns Halt without any further call, otherwise the
snapshot-creation call follows; if `os` is anything else, the next call is the
snapshot-creation call and no guest command is run at all. -/
theorem Run_syncs_exactly_for_linux (env : Env) (w w2 : World) (c : Config)
    (dcId volumeId serverId os : String)
    (hui : w.state.lookup "ui" = some .ui)
    (hcfg : w.state.lookup "config" = some (.config c))
    (hdc : w.state.lookup "datacenter_id" = some (.string dcId))
    (hvol : w.state.lookup "volume_id" = some (.string volumeId))
    (hsrv : w.state.lookup "instance_id" = some (.string serverId))
    (hcomm : w.state.lookup "communicator" = some .communicator)
    (hos : (stepTakeSnapshot.getOs env dcId serverId).run
        { w with ui := w.ui ++ [.say "Creating ProfitBricks snapshot..."] } = (.ret (os, none), w2)) :
    (∃ cs, w2.calls = w.calls ++ cs ∧ ∀ call ∈ cs, ∀ cmd, call ≠ .CommunicatorStart cmd)
    ∧ (env.ToLower os = "linux" →
        ∃ rest, ((stepTakeSnapshot.Run env).run w).2.calls
            = w2.calls ++ .CommunicatorStart "sync" :: rest
          ∧ ((env.comm.Start w2.calls.length "sync" ≠ none
                ∨ env.comm.ExitStatus w2.calls.length "sync" ≠ 0) →
              ((stepTakeSnapshot.Run env).run w).1 = .ret .ActionHalt ∧ rest = [])
          ∧ ((env.comm.Start w2.calls.length "sync" = none
                ∧ env.comm.ExitStatus w2.calls.length "sync" = 0) →
              ∃ polls, rest = .DatacentersVolumesCreateSnapshotPost dcId volumeId :: polls))
    ∧ (env.ToLower os ≠ "linux" →
        ∃ rest, ((stepTakeSnapshot.Run env).run w).2.calls
            = w2.calls ++ .DatacentersVolumesCreateSnapshotPost dcId volumeId :: rest
          ∧ ∀ call ∈ rest, ∀ cmd, call ≠ .CommunicatorStart cmd) := by
  refine ⟨?_, ?_, ?_⟩
  · have h := (stepTakeSnapshot.getOs_appends (A := fun call => ∀ cmd, call ≠ .CommunicatorStart cmd)
      env dcId serverId (by simp) (by simp)).out
      { w with ui := w.ui ++ [.say "Creating ProfitBricks snapshot..."] }
    rw [hos] at h
    exact h
  · intro hlinux
    unfold stepTakeSnapshot.Run
    simp only [run_bind, run_stateGet, hui, hcfg, hdc, hvol, hsrv, hcomm, run_pure, run_uiSay,
      stepCreateServer.assertUi, stepCreateServer.assertConfig, stepCreateServer.assertString,
      stepTakeSnapshot.isCommunicator]
    rw [if_neg (by decide : ¬ (true = false))]
    simp only [run_bind, run_pure, run_uiSay, hos, hlinux, if_true, stepTakeSnapshot.syncFs,
      run_issue]
    rcases hstart : env.comm.Start w2.calls.length "sync" with _ | e
    · by_cases hexit : env.comm.ExitStatus w2.calls.length "sync" = 0
      · simp only [hexit]
        obtain ⟨polls, h1, _⟩ := stepTakeSnapshot.Run_createSnapshot_calls env c dcId volumeId
          { state := w2.state, calls := w2.calls ++ [.CommunicatorStart "sync"],
            ui := w2.ui ++ [.say ("Server OS is " ++ os)] ++ [.say "syncing file system changes"] }
        refine ⟨.DatacentersVolumesCreateSnapshotPost dcId volumeId :: polls, ?_, ?_, ?_⟩
        · simpa using h1
        · intro h
          simp at h
        · intro _
          exact ⟨polls, rfl⟩
      · refine ⟨[], ?_, ?_, ?_⟩
        · simp [hexit, run_bind]
        · intro _
          simp [hexit, run_bind]
        · intro h
          exact absurd h.2 hexit
    · refine ⟨[], ?_, ?_, ?_⟩
      · simp [run_bind]
      · intro _
        simp [run_bind]
      · intro h
        simp at h
  · intro hother
    unfold stepTakeSnapshot.Run
    simp only [run_bind, run_stateGet, hui, hcfg, hdc, hvol, hsrv, hcomm, run_pure, run_uiSay,
      stepCreateServer.assertUi, stepCreateServer.assertConfig, stepCreateServer.assertString,
      stepTakeSnapshot.isCommunicator]
    rw [if_neg (by decide : ¬ (true = false))]
    simp only [run_bind, run_pure, run_uiSay, hos, hother, if_false]
    exact stepTakeSnapshot.Run_createSnapshot_calls env c dcId volumeId _

/-- C9 at concrete inputs: a boot volume licensed "windows2019" (no guest
command, snapshot creation is the next call) and one licensed "LINUX" whose
sync command exits with status 1 (Halt, no further call). -/
theorem Run_sync_witness :
    (∃ rest, ((stepTakeSnapshot.Run (sampleEnv (licenceClient "windows2019"))).run
          (freshWorld (snapshotBag (sampleConfig 0 "" "" "")))).2.calls
        = [.DatacentersServersFindById "dc-1" "srv-1", .DatacentersVolumesFindById "dc-1" "vol-1"]
            ++ .DatacentersVolumesCreateSnapshotPost "dc-1" "vol-1" :: rest
      ∧ ∀ call ∈ rest, ∀ cmd, call ≠ .CommunicatorStart cmd)
    ∧ (∃ rest, ((stepTakeSnapshot.Run (failingSyncEnv (licenceClient "LINUX"))).run
          (freshWorld (snapshotBag (sampleConfig 0 "" "" "")))).2.calls
        = [.DatacentersServersFindById "dc-1" "srv-1", .DatacentersVolumesFindById "dc-1" "vol-1"]
            ++ .CommunicatorStart "sync" :: rest
      ∧ ((stepTakeSnapshot.Run (failingSyncEnv (licenceClient "LINUX"))).run
          (freshWorld (snapshotBag (sampleConfig 0 "" "" "")))).1 = .ret .ActionHalt
      ∧ rest = []) := by
  refine ⟨?_, ?_⟩
  · exact (Run_syncs_exactly_for_linux (sampleEnv (licenceClient "windows2019"))
      (freshWorld (snapshotBag (sampleConfig 0 "" "" "")))
      { state := snapshotBag (sampleConfig 0 "" "" "")
        calls := [.DatacentersServersFindById "dc-1" "srv-1", .DatacentersVolumesFindById "dc-1" "vol-1"]
        ui := [.say "Creating ProfitBricks snapshot..."] }
      (sampleConfig 0 "" "" "") "dc-1" "vol-1" "srv-1" "windows2019"
      rfl rfl rfl rfl rfl rfl rfl).2.2 (by decide)
  · obtain ⟨rest, h1, h2, _⟩ := (Run_syncs_exactly_for_linux (failingSyncEnv (licenceClient "LINUX"))
      (freshWorld (snapshotBag (sampleConfig 0 "" "" "")))
      { state := snapshotBag (sampleConfig 0 "" "" "")
        calls := [.DatacentersServersFindById "dc-1" "srv-1", .DatacentersVolumesFindById "dc-1" "vol-1"]
        ui := [.say "Creating ProfitBricks snapshot..."] }
      (sampleConfig 0 "" "" "") "dc-1" "vol-1" "srv-1" "LINUX"
      rfl rfl rfl rfl rfl rfl rfl).2.1 (by decide)
    exact ⟨rest, h1, (h2 (Or.inr (by decide))).1, (h2 (Or.inr (by decide))).2⟩

section keepsState

variable {α β : Type}

theorem keepsState_pure (a : α) : KeepsState (Pure.pure a : Go α) := ⟨fun _ => rfl⟩

theorem keepsState_goPanic (r : String) : KeepsState (Ionoscloud.goPanic r : Go α) := ⟨fun _ => rfl⟩

theorem keepsState_deref (p : Option α) : KeepsState (Ionoscloud.deref p) := by
  cases p
  · exact ⟨fun _ => rfl⟩
  · exact ⟨fun _ => rfl⟩

theorem keepsState_uiSay (s : String) : KeepsState (Ionoscloud.uiSay s) := ⟨fun _ => rfl⟩

theorem keepsState_uiError (s : String) : KeepsState (Ionoscloud.uiError s) := ⟨fun _ => rfl⟩

theorem keepsState_stateGet (k : String) : KeepsState (Ionoscloud.stateGet k) := ⟨fun _ => rfl⟩

theorem keepsState_issue (c : Call) (answer : Nat → α) : KeepsState (Ionoscloud.issue c answer) :=
  ⟨fun _ => rfl⟩

theorem keepsState_bind {x : Go α} {f : α → Go β} (hx : KeepsState x)
    (hf : ∀ a, KeepsState (f a)) : KeepsState (x >>= f) := by
  constructor
  intro w
  have h1 := hx.out w
  rw [run_bind]
  rcases hr : x.run w with ⟨_ | _ | _, w1⟩
  · rename_i a
    rw [hr] at h1
    simp only at h1 ⊢
    rw [(hf a).out w1, h1]
  · rw [hr] at h1
    exact h1
  · rw [hr] at h1
    exact h1

end keepsState

namespace stepCreateServer

theorem waitTillProvisioned_keepsState (env : Env) (path : String) (config : Config) :
    KeepsState (waitTillProvisioned env path config) :=
  ⟨fun w => (waitTillProvisioned_frame env path config w).1⟩

theorem assertConfig_keepsState (v : Option Value) : KeepsState (assertConfig v) := by
  unfold assertConfig
  repeat' first
    | exact keepsState_pure _
    | exact keepsState_goPanic _
    | split

theorem assertUi_keepsState (v : Option Value) : KeepsState (assertUi v) := by
  unfold assertUi
  repeat' first
    | exact keepsState_pure _
    | exact keepsState_goPanic _
    | split

theorem getImageId_loop_keepsState (env : Env) (imageName : String) (c : Config) :
    ∀ items : List Image, KeepsState (getImageId.loop env imageName c items) := by
  intro items
  induction items with
  | nil => exact keepsState_pure _
  | cons img rest ih =>
    unfold getImageId.loop
    repeat' first
      | exact ih
      | apply keepsState_bind
      | exact keepsState_pure _
      | exact keepsState_deref _
      | intro _
      | dsimp only
      | split

theorem getImageId_keepsState (env : Env) (imageName : String) (c : Config) :
    KeepsState (getImageId env imageName c) := by
  unfold getImageId
  repeat' first
    | exact getImageId_loop_keepsState env imageName c _
    | exact keepsState_issue _ _
    | apply keepsState_bind
    | exact keepsState_pure _
    | exact keepsState_deref _
    | intro _
    | split

theorem getImageAlias_outer_keepsState (env : Env) (imageAlias : String) :
    ∀ items : List Location, KeepsState (getImageAlias.outer env imageAlias items) := by
  intro items
  induction items with
  | nil => exact keepsState_pure _
  | cons loc rest ih =>
    unfold getImageAlias.outer
    repeat' first
      | exact ih
      | apply keepsState_bind
      | exact keepsState_pure _
      | exact keepsState_deref _
      | intro _
      | split

theorem getImageAlias_keepsState (env : Env) (imageAlias location : String) :
    KeepsState (getImageAlias env imageAlias location) := by
  unfold getImageAlias
  repeat' first
    | exact getImageAlias_outer_keepsState env imageAlias _
    | exact keepsState_issue _ _
    | apply keepsState_bind
    | exact keepsState_pure _
    | exact keepsState_deref _
    | intro _
    | split

end stepCreateServer

namespace stepCreateServer

/-- What C1 asks for does hold for the status fetches the loop makes: when the
fetches before the one at index `m` are non-terminal, the fetch at index `m`
is `FAILED` with a message, and the loop counter reaches it (`i + 2 * m < N`),
the loop returns that message as error after exactly `m + 1` fetches. -/
theorem waitTillProvisioned_loop_failed (env : Env) (path : String) (N : Int) (msg : String) :
    ∀ (m fuel : Nat) (i : Int) (w : World) (resp : Option APIResponse),
      i + 2 * (m : Int) < N → m < fuel →
      (∀ j : Nat, j < m → pendingAt env path (w.calls.length + j)) →
      env.client.GetRequestStatus (w.calls.length + m) path
        = (some ⟨some ⟨some "FAILED", some msg⟩⟩, resp, none) →
      (waitTillProvisioned.loop env path N fuel i).run w
        = (.ret (some msg),
           { w with calls := w.calls ++ List.replicate (m + 1) (.GetRequestStatus path) }) := by
  intro m
  induction m with
  | zero =>
    intro fuel i w resp hi hfuel _ hfail
    obtain ⟨fuel, rfl⟩ : ∃ f, fuel = f + 1 := ⟨fuel - 1, by omega⟩
    have hi' : i < N := by simpa using hi
    simp only [Nat.add_zero] at hfail
    unfold waitTillProvisioned.loop
    simp [hi', run_bind, hfail]
  | succ m ih =>
    intro fuel i w resp hi hfuel hpend hfail
    obtain ⟨fuel, rfl⟩ : ∃ f, fuel = f + 1 := ⟨fuel - 1, by omega⟩
    have hi' : i < N := by push_cast at hi; omega
    obtain ⟨s, ms, r0, hs, hd, hf⟩ := hpend 0 (by omega)
    simp only [Nat.add_zero] at hs
    unfold waitTillProvisioned.loop
    simp only [if_pos hi', run_bind, run_issue, hs, run_deref_some, hd, hf, if_false]
    rw [ih fuel (i + 1 + 1) _ resp (by push_cast at hi ⊢; omega) (by omega)
      (fun j hj => by
        have := hpend (j + 1) (by omega)
        simpa [Nat.add_assoc, Nat.add_comm 1 j] using this)
      (by simpa [Nat.add_assoc, Nat.add_comm 1 m] using hfail)]
    simp [List.replicate_succ]

/-- `waitTillProvisioned` with `FAILED` at the fetch of index `m`, reached by
the loop counter: the error carries the message, after `m + 1` fetches. -/
theorem waitTillProvisioned_failed_within_polls (env : Env) (path : String) (config : Config)
    (msg : String) (m : Nat) (w : World) (resp : Option APIResponse)
    (hreach : 2 * (m : Int) < (if config.Retries > 0 then config.Retries else 120))
    (hpend : ∀ j : Nat, j < m → pendingAt env path (w.calls.length + j))
    (hfail : env.client.GetRequestStatus (w.calls.length + m) path
      = (some ⟨some ⟨some "FAILED", some msg⟩⟩, resp, none)) :
    (waitTillProvisioned env path config).run w
      = (.ret (some msg),
         { w with calls := w.calls ++ List.replicate (m + 1) (.GetRequestStatus path) }) := by
  unfold waitTillProvisioned
  exact waitTillProvisioned_loop_failed env path _ msg m _ 0 w resp (by simpa using hreach)
    (by split <;> omega) hpend hfail

end stepCreateServer

/-- C5 (counterexample): the container creation call succeeds (status 202, no
error), the wait on its operation fails, `Run` returns Halt, and the state bag
holds no `datacenter_id`. -/
theorem Run_halts_with_datacenter_id_absent :
    (stepCreateServer.Run (sampleEnv failingOperationClient)).run
        (freshWorld (sampleBag (sampleConfig 0 "ubuntu" "SSD" "de/txl")))
      = (.ret .ActionHalt,
         { state := sampleBag (sampleConfig 0 "ubuntu" "SSD" "de/txl")
           calls := [.ImagesGet, .DatacentersPost, .GetRequestStatus "/requests/dc"]
           ui := [.say "Creating Virtual Data Center...",
                  .error "Error occurred while creating a datacenter provisioning failed"] })
    ∧ (sampleBag (sampleConfig 0 "ubuntu" "SSD" "de/txl")).lookup "datacenter_id" = none := by
  decide

/-- The first element of a list satisfying `P` is found at one place only. -/
theorem first_match_unique {P : Call → Prop} {a b : Call} :
    ∀ {l1 l2 r1 r2 : List Call}, l1 ++ a :: r1 = l2 ++ b :: r2 → P a → P b →
      (∀ x ∈ l1, ¬ P x) → (∀ x ∈ l2, ¬ P x) → l1 = l2 ∧ a = b ∧ r1 = r2 := by
  intro l1
  induction l1 with
  | nil =>
    intro l2 r1 r2 h ha _ _ h2
    cases l2 with
    | nil =>
      simp only [List.nil_append, List.cons.injEq] at h
      exact ⟨rfl, h.1, h.2⟩
    | cons y l2 =>
      simp only [List.nil_append, List.cons_append, List.cons.injEq] at h
      exact absurd (h.1 ▸ ha) (h2 y (List.mem_cons_self _ _))
  | cons x l1 ih =>
    intro l2 r1 r2 h ha hb h1 h2
    cases l2 with
    | nil =>
      simp only [List.nil_append, List.cons_append, List.cons.injEq] at h
      exact absurd (h.1 ▸ hb) (h1 x (List.mem_cons_self _ _))
    | cons y l2 =>
      simp only [List.cons_append, List.cons.injEq] at h
      obtain ⟨h3, h4, h5⟩ := ih h.2 ha hb (fun z hz => h1 z (List.mem_cons_of_mem _ hz))
        (fun z hz => h2 z (List.mem_cons_of_mem _ hz))
      exact ⟨by rw [h.1, h3], h4, h5⟩

namespace stepCreateServer

variable {A : Call → Prop}

theorem Run_finish_appends (env : Env) (datacenter : Datacenter) (server : Server)
    (h : ∀ call, A call) : Appends A (Run.finish env datacenter server) := by
  unfold Run.finish
  repeat' first
    | exact appends_issue _ _ (h _)
    | apply appends_bind
    | apply appends_pure
    | apply appends_deref
    | apply appends_index
    | apply appends_statePut
    | apply appends_uiError
    | intro _
    | split

theorem Run_attachNic_appends (env : Env) (c : Config) (datacenter : Datacenter)
    (server : Server) (lan : Lan) (nic : Nic) (h : ∀ call, A call) :
    Appends A (Run.attachNic env c datacenter server lan nic) := by
  unfold Run.attachNic
  repeat' first
    | exact Run_finish_appends env _ _ h
    | exact waitTillProvisioned_appends env _ _ (h _)
    | exact parseErrorMessage_appends env _
    | exact appends_issue _ _ (h _)
    | apply appends_bind
    | apply appends_pure
    | apply appends_deref
    | apply appends_uiError
    | intro _
    | split

theorem Run_createLan_appends (env : Env) (c : Config) (datacenter : Datacenter)
    (server : Server) (nic : Nic) (h : ∀ call, A call) :
    Appends A (Run.createLan env c datacenter server nic) := by
  unfold Run.createLan
  repeat' first
    | exact Run_attachNic_appends env _ _ _ _ _ h
    | exact waitTillProvisioned_appends env _ _ (h _)
    | exact parseErrorMessage_appends env _
    | exact appends_issue _ _ (h _)
    | apply appends_bind
    | apply appends_pure
    | apply appends_deref
    | apply appends_uiError
    | intro _
    | dsimp only
    | split

theorem Run_createServer_appends (env : Env) (c : Config) (datacenter : Datacenter)
    (server : Server) (nic : Nic) (h : ∀ call, A call) :
    Appends A (Run.createServer env c datacenter server nic) := by
  unfold Run.createServer
  repeat' first
    | exact Run_createLan_appends env _ _ _ _ h
    | exact waitTillProvisioned_appends env _ _ (h _)
    | exact parseErrorMessage_appends env _
    | exact appends_issue _ _ (h _)
    | apply appends_bind
    | apply appends_pure
    | apply appends_deref
    | apply appends_uiError
    | apply appends_statePut
    | intro _
    | split

end stepCreateServer

section haltsWhenCreationWaitFails

variable {α : Type} {env : Env} {c : Config}

theorem haltsWhenCreationWaitFails_of_appends {x : Go StepAction}
    (hx : Appends (fun call => call ≠ .DatacentersPost) x) :
    HaltsWhenCreationWaitFails env c x := by
  constructor
  intro w pre post _ _ _ hw hrun _ _ _ _
  obtain ⟨cs, h1, h2⟩ := hx.out w
  have hmem : Call.DatacentersPost ∈ (x.run w).2.calls := by
    rw [hrun]
    simp
  rw [h1] at hmem
  rcases List.mem_append.mp hmem with h | h
  · exact absurd h hw
  · exact absurd rfl (h2 _ h)

theorem haltsWhenCreationWaitFails_bind {x : Go α} {f : α → Go StepAction}
    (hx : Appends (fun call => call ≠ .DatacentersPost) x) (hk : KeepsState x)
    (hf : ∀ a, HaltsWhenCreationWaitFails env c (f a)) :
    HaltsWhenCreationWaitFails env c (x >>= f) := by
  constructor
  intro w pre post dcR resp hcfg hw hrun hpre hpost hstatus hwait
  obtain ⟨cs, h1, h2⟩ := hx.out w
  have h3 := hk.out w
  rw [run_bind] at hrun ⊢
  rcases hr : x.run w with ⟨_ | _ | _, w1⟩ <;> rw [hr] at h1 h3 hrun <;> simp only at h1 h3 hrun ⊢
  · rename_i a
    have hw1 : Call.DatacentersPost ∉ w1.calls := by
      rw [h1]
      intro h
      rcases List.mem_append.mp h with h | h
      · exact hw h
      · exact h2 _ h rfl
    obtain ⟨h4, h5⟩ := (hf a).out w1 pre post dcR resp (h3 ▸ hcfg) hw1 hrun hpre hpost hstatus hwait
    exact ⟨h4, h5.trans h3⟩
  · have hmem : Call.DatacentersPost ∈ w1.calls := by
      rw [hrun]
      simp
    rw [h1] at hmem
    rcases List.mem_append.mp hmem with h | h
    · exact absurd h hw
    · exact absurd rfl (h2 _ h)
  · have hmem : Call.DatacentersPost ∈ w1.calls := by
      rw [hrun]
      simp
    rw [h1] at hmem
    rcases List.mem_append.mp hmem with h | h
    · exact absurd h hw
    · exact absurd rfl (h2 _ h)

/-- Reading the configuration yields the configuration the state bag holds. -/
theorem haltsWhenCreationWaitFails_bind_config {f : Config → Go StepAction}
    (hf : HaltsWhenCreationWaitFails env c (f c)) :
    HaltsWhenCreationWaitFails env c
      ((stateGet "config" >>= stepCreateServer.assertConfig) >>= f) := by
  constructor
  intro w pre post dcR resp hcfg hw hrun hpre hpost hstatus hwait
  have hr : (stateGet "config" >>= stepCreateServer.assertConfig).run w = (.ret c, w) := by
    simp [run_bind, hcfg, stepCreateServer.assertConfig]
  rw [run_bind, hr] at hrun ⊢
  exact hf.out w pre post dcR resp hcfg hw hrun hpre hpost hstatus hwait

end haltsWhenCreationWaitFails

namespace stepCreateServer

theorem Run_createDatacenter_halts (env : Env) (c : Config) (img alias_ : String) :
    HaltsWhenCreationWaitFails env c (Run.createDatacenter env c img alias_) := by
  constructor
  intro w pre post dcR resp _ hw hrun hpre hpost hstatus hwait
  have hs : ¬ resp.StatusCode > 299 := by omega
  have shape : ∃ rest, ((Run.createDatacenter env c img alias_).run w).2.calls
      = w.calls ++ Call.DatacentersPost :: rest ∧ ∀ call ∈ rest, True := by
    unfold Run.createDatacenter
    apply issue_bind_calls
    intro a
    repeat' first
      | exact Run_createServer_appends env _ _ _ _ (fun _ => trivial)
      | exact waitTillProvisioned_appends env _ _ trivial
      | apply appends_bind
      | apply appends_pure
      | apply appends_deref
      | apply appends_uiError
      | intro _
      | dsimp only
      | split
  obtain ⟨rest, hshape, _⟩ := shape
  rw [hshape] at hrun
  obtain ⟨hpre_eq, _, _⟩ := first_match_unique (P := fun call => call = Call.DatacentersPost)
    hrun rfl rfl (fun x hx h => hw (h ▸ hx)) (fun x hx h => hpre (h ▸ hx))
  subst hpre_eq
  unfold Run.createDatacenter
  simp only [run_bind, run_issue, hpost, run_deref_some, if_neg hs]
  generalize hres : (waitTillProvisioned env resp.Location c).run _ = res
  obtain ⟨e, he⟩ : ∃ e, res.1 = .ret (some e) := by
    rw [← hres]
    exact hwait _ rfl
  have hst : res.2.state = w.state := by
    rw [← hres]
    exact (waitTillProvisioned_frame env resp.Location c _).1
  obtain ⟨r1, w2⟩ := res
  simp only at he hst
  subst he
  simp [run_bind, hst]

end stepCreateServer

/-- C5 (amended): `datacenter_id` is recorded only after the container's
creation has been confirmed. In every run of `Run` from a state bag holding the
configuration `c` in which the container creation call is issued (after the
calls `pre`), is answered there without error and with a success status, and
the following `waitTillProvisioned`, run from that trace, returns an error,
`Run` returns Halt and the state bag is as before the run, so `datacenter_id`
is not recorded. -/
theorem Run_halts_without_datacenter_id_when_wait_fails (env : Env) (w : World) (c : Config)
    (pre post : List Call) (dcR : Datacenter) (resp : APIResponse)
    (hcfg : w.state.lookup "config" = some (.config c))
    (hfresh : Call.DatacentersPost ∉ w.calls)
    (hrun : ((stepCreateServer.Run env).run w).2.calls = pre ++ Call.DatacentersPost :: post)
    (hpre : Call.DatacentersPost ∉ pre)
    (hpost : env.client.DatacentersPost pre.length
        { Id := none
          Properties := some { Name := some c.SnapshotName, Location := some c.Region } }
      = (dcR, some resp, none))
    (hstatus : resp.StatusCode ≤ 299)
    (hwait : ∀ w1 : World, w1.calls = pre ++ [Call.DatacentersPost] →
      ∃ e, ((stepCreateServer.waitTillProvisioned env resp.Location c).run w1).1
        = .ret (some e)) :
    ((stepCreateServer.Run env).run w).1 = .ret .ActionHalt
      ∧ ((stepCreateServer.Run env).run w).2.state = w.state
      ∧ ((stepCreateServer.Run env).run w).2.state.lookup "datacenter_id"
          = w.state.lookup "datacenter_id" := by
  have key : HaltsWhenCreationWaitFails env c (stepCreateServer.Run env) := by
    unfold stepCreateServer.Run
    repeat' first
      | exact stepCreateServer.Run_createDatacenter_halts env c _ _
      | apply haltsWhenCreationWaitFails_bind_config
      | apply haltsWhenCreationWaitFails_bind
      | exact stepCreateServer.getImageId_appends env _ _ (by simp)
      | exact stepCreateServer.getImageId_keepsState env _ _
      | exact stepCreateServer.getImageAlias_appends env _ _ (by simp)
      | exact stepCreateServer.getImageAlias_keepsState env _ _
      | exact stepCreateServer.assertUi_appends _
      | exact stepCreateServer.assertUi_keepsState _
      | exact appends_stateGet _
      | exact keepsState_stateGet _
      | exact appends_uiSay _
      | exact keepsState_uiSay _
      | exact appends_uiError _
      | exact keepsState_uiError _
      | exact appends_pure _
      | apply appends_bind
      | apply keepsState_bind
      | intro _
      | split
      | apply haltsWhenCreationWaitFails_of_appends
  obtain ⟨h1, h2⟩ := key.out w pre post dcR resp hcfg hfresh hrun hpre hpost hstatus hwait
  exact ⟨h1, h2, by rw [h2]⟩

/-- C5 (amended) at a concrete input: a provider that accepts the container
creation and reports the operation as `PENDING` at the first status fetch and
as `FAILED` at the second. -/
theorem Run_halts_without_datacenter_id_witness :
    ((stepCreateServer.Run (sampleEnv pendingThenFailedClient)).run
        (freshWorld (sampleBag (sampleConfig 0 "ubuntu" "SSD" "de/txl")))).2.calls
      = [Call.ImagesGet] ++ Call.DatacentersPost
          :: [.GetRequestStatus "/requests/dc", .GetRequestStatus "/requests/dc"]
    ∧ ((stepCreateServer.Run (sampleEnv pendingThenFailedClient)).run
        (freshWorld (sampleBag (sampleConfig 0 "ubuntu" "SSD" "de/txl")))).1 = .ret .ActionHalt
    ∧ ((stepCreateServer.Run (sampleEnv pendingThenFailedClient)).run
        (freshWorld (sampleBag (sampleConfig 0 "ubuntu" "SSD" "de/txl")))).2.state
      = sampleBag (sampleConfig 0 "ubuntu" "SSD" "de/txl")
    ∧ ((stepCreateServer.Run (sampleEnv pendingThenFailedClient)).run
        (freshWorld (sampleBag (sampleConfig 0 "ubuntu" "SSD" "de/txl")))).2.state.lookup
          "datacenter_id" = none :=
  ⟨by decide,
   Run_halts_without_datacenter_id_when_wait_fails (sampleEnv pendingThenFailedClient)
    (freshWorld (sampleBag (sampleConfig 0 "ubuntu" "SSD" "de/txl")))
    (sampleConfig 0 "ubuntu" "SSD" "de/txl")
    [Call.ImagesGet] [.GetRequestStatus "/requests/dc", .GetRequestStatus "/requests/dc"]
    { Id := some "dc-1"
      Properties := some { Name := some "packer-snapshot", Location := some "de/txl" } }
    ⟨202, "", "/requests/dc"⟩
    rfl (by decide) (by decide) (by decide) rfl (by decide)
    (fun w1 h1 => ⟨"provisioning failed", by
      have hl : w1.calls.length = 2 := by rw [h1]; rfl
      rw [stepCreateServer.waitTillProvisioned_failed_within_polls (sampleEnv pendingThenFailedClient)
        "/requests/dc" (sampleConfig 0 "ubuntu" "SSD" "de/txl") "provisioning failed" 1 w1
        (some ⟨200, "provisioning failed", ""⟩) (by decide)
        (fun j hj => by
          have hj0 : j = 0 := by omega
          subst hj0
          rw [hl]
          exact ⟨"PENDING", some "", some ⟨200, "", ""⟩, rfl, by decide, by decide⟩)
        (by rw [hl]; rfl)]⟩)⟩

namespace stepCreateServer

theorem parseErrorMessage_inner_run (w : World) :
    ∀ (fields : List (String × JsonValue)) (t : String),
      (∀ k v, (k, v) ∈ fields → k = "message" → ∃ s, v = .string s) →
      ∃ t1, (parseErrorMessage.inner t fields).run w = (.ret t1, w)
        ∧ t.data <+: t1.data
        ∧ ∀ m, ("message", JsonValue.string m) ∈ fields → m.data <:+: t1.data := by
  intro fields
  induction fields with
  | nil =>
    intro t _
    exact ⟨t, rfl, List.prefix_refl _, by simp⟩
  | cons kv rest ih =>
    intro t hwf
    obtain ⟨k, v⟩ := kv
    have hrest : ∀ k v, (k, v) ∈ rest → k = "message" → ∃ s, v = .string s :=
      fun k v h => hwf k v (List.mem_cons_of_mem _ h)
    unfold parseErrorMessage.inner
    by_cases hk : k = "message"
    · obtain ⟨s, rfl⟩ := hwf k v (List.mem_cons_self _ _) hk
      obtain ⟨t1, h1, h2, h3⟩ := ih (t ++ s ++ "\n") hrest
      refine ⟨t1, by simp [hk, h1], ?_, ?_⟩
      · refine List.IsPrefix.trans ?_ h2
        simp [String.data_append, List.append_assoc]
      · intro m hm
        rcases List.mem_cons.mp hm with h | h
        · have hms : m = s := by
            have := (Prod.mk.inj h).2
            exact JsonValue.string.inj this
          subst hms
          refine List.IsInfix.trans ?_ h2.isInfix
          exact ⟨t.data, "\n".data, by simp [String.data_append, List.append_assoc]⟩
        · exact h3 m h
    · obtain ⟨t1, h1, h2, h3⟩ := ih t hrest
      refine ⟨t1, by simp [hk, h1], h2, ?_⟩
      intro m hm
      rcases List.mem_cons.mp hm with h | h
      · exact absurd (Prod.mk.inj h).1.symm hk
      · exact h3 m h

theorem parseErrorMessage_outer_run (w : World) :
    ∀ (items : List JsonValue) (t : String), (∀ v ∈ items, isMessageObject v) →
      ∃ t1, (parseErrorMessage.outer t items).run w = (.ret t1, w) ∧ t.data <+: t1.data := by
  intro items
  induction items with
  | nil =>
    intro t _
    exact ⟨t, rfl, List.prefix_refl _⟩
  | cons v rest ih =>
    intro t hwf
    have hv := hwf v (List.mem_cons_self _ _)
    have hrest : ∀ v ∈ rest, isMessageObject v := fun v h => hwf v (List.mem_cons_of_mem _ h)
    cases v with
    | object fields =>
      obtain ⟨t1, h1, h2, _⟩ := parseErrorMessage_inner_run w fields t hv
      obtain ⟨t2, h3, h4⟩ := ih t1 hrest
      refine ⟨t2, ?_, h2.trans h4⟩
      unfold parseErrorMessage.outer
      simp [run_bind, h1, h3]
    | null => exact absurd hv (by simp [isMessageObject])
    | bool => exact absurd hv (by simp [isMessageObject])
    | number => exact absurd hv (by simp [isMessageObject])
    | string => exact absurd hv (by simp [isMessageObject])
    | array => exact absurd hv (by simp [isMessageObject])

/-- On an envelope whose first message object holds the message `m`,
`parseErrorMessage` returns a text containing `m`. -/
theorem parseErrorMessage_envelope (env : Env) (raw m : String) (w : World)
    (tmp : List (String × JsonValue)) (o : List (String × JsonValue)) (rest : List JsonValue)
    (hraw : env.UnmarshalMap raw = .ok tmp)
    (hmsgs : tmp.lookup "messages" = some (.array (.object o :: rest)))
    (hm : ("message", JsonValue.string m) ∈ o)
    (hwf : ∀ v ∈ JsonValue.object o :: rest, isMessageObject v) :
    ∃ text, (parseErrorMessage env raw).run w = (.ret text, w) ∧ m.data <:+: text.data := by
  have ho : isMessageObject (.object o) := hwf _ (List.mem_cons_self _ _)
  have hrest : ∀ v ∈ rest, isMessageObject v := fun v h => hwf v (List.mem_cons_of_mem _ h)
  obtain ⟨t1, h1, _, h3⟩ := parseErrorMessage_inner_run w o "" ho
  obtain ⟨t2, h4, h5⟩ := parseErrorMessage_outer_run w rest t1 hrest
  refine ⟨t2, ?_, (h3 m hm).trans h5.isInfix⟩
  unfold parseErrorMessage
  simp only [hraw, hmsgs]
  unfold parseErrorMessage.outer
  simp [run_bind, h1, h4]

end stepCreateServer

section reportsNicFailure

variable {α : Type} {env : Env}

theorem nic_call_not_appended {x : Go α} {w : World} {pre post : List Call} {d l : String}
    (hx : Appends (fun call => ∀ d l, call ≠ .DatacentersLansNicsPost d l) x)
    (hw : ∀ call ∈ w.calls, ∀ d l, call ≠ .DatacentersLansNicsPost d l)
    (hrun : (x.run w).2.calls = pre ++ Call.DatacentersLansNicsPost d l :: post) : False := by
  obtain ⟨cs, h1, h2⟩ := hx.out w
  have hmem : Call.DatacentersLansNicsPost d l ∈ (x.run w).2.calls := by
    rw [hrun]
    simp
  rw [h1] at hmem
  rcases List.mem_append.mp hmem with h | h
  · exact hw _ h d l rfl
  · exact h2 _ h d l rfl

theorem reportsNicFailure_of_appends {nic : Nic} {x : Go StepAction}
    (hx : Appends (fun call => ∀ d l, call ≠ .DatacentersLansNicsPost d l) x) :
    ReportsNicFailure env nic x := by
  constructor
  intro w pre post d l _ _ _ hw hrun _ _
  exact (nic_call_not_appended hx hw hrun).elim

theorem reportsNicFailure_bind {nic : Nic} {x : Go α} {f : α → Go StepAction}
    (hx : Appends (fun call => ∀ d l, call ≠ .DatacentersLansNicsPost d l) x)
    (hf : ∀ a, ReportsNicFailure env nic (f a)) : ReportsNicFailure env nic (x >>= f) := by
  constructor
  intro w pre post d l nicR resp err hw hrun hpre hans
  obtain ⟨cs, h1, h2⟩ := hx.out w
  have hw1 : ∀ call ∈ (x.run w).2.calls, ∀ d l, call ≠ .DatacentersLansNicsPost d l := by
    rw [h1]
    intro call hc
    rcases List.mem_append.mp hc with h | h
    · exact hw call h
    · exact h2 call h
  rw [run_bind] at hrun ⊢
  rcases hr : x.run w with ⟨_ | _ | _, w1⟩ <;> rw [hr] at hw1 hrun <;> simp only at hw1 hrun ⊢
  · rename_i a
    exact (hf a).out w1 pre post d l nicR resp err hw1 hrun hpre hans
  · exact absurd rfl (hw1 _ (by rw [hrun]; simp) d l)
  · exact absurd rfl (hw1 _ (by rw [hrun]; simp) d l)

theorem reportsNicFailureFor_of_phase {c : Config} {x : Go StepAction}
    (hx : ReportsNicFailure env
      { Id := none
        Properties := some { Name := some c.SnapshotName, Dhcp := some true, Ips := none } } x) :
    ReportsNicFailureFor env c x := by
  constructor
  intro w pre post d l nicR resp err _ hw hrun hpre hans
  exact hx.out w pre post d l nicR resp err hw hrun hpre hans

theorem reportsNicFailureFor_of_appends {c : Config} {x : Go StepAction}
    (hx : Appends (fun call => ∀ d l, call ≠ .DatacentersLansNicsPost d l) x) :
    ReportsNicFailureFor env c x :=
  reportsNicFailureFor_of_phase (reportsNicFailure_of_appends hx)

theorem reportsNicFailureFor_bind {c : Config} {x : Go α} {f : α → Go StepAction}
    (hx : Appends (fun call => ∀ d l, call ≠ .DatacentersLansNicsPost d l) x) (hk : KeepsState x)
    (hf : ∀ a, ReportsNicFailureFor env c (f a)) : ReportsNicFailureFor env c (x >>= f) := by
  constructor
  intro w pre post d l nicR resp err hcfg hw hrun hpre hans
  obtain ⟨cs, h1, h2⟩ := hx.out w
  have h3 := hk.out w
  have hw1 : ∀ call ∈ (x.run w).2.calls, ∀ d l, call ≠ .DatacentersLansNicsPost d l := by
    rw [h1]
    intro call hc
    rcases List.mem_append.mp hc with h | h
    · exact hw call h
    · exact h2 call h
  rw [run_bind] at hrun ⊢
  rcases hr : x.run w with ⟨_ | _ | _, w1⟩ <;> rw [hr] at hw1 h3 hrun <;>
    simp only at hw1 h3 hrun ⊢
  · rename_i a
    exact (hf a).out w1 pre post d l nicR resp err (h3 ▸ hcfg) hw1 hrun hpre hans
  · exact absurd rfl (hw1 _ (by rw [hrun]; simp) d l)
  · exact absurd rfl (hw1 _ (by rw [hrun]; simp) d l)

/-- Reading the configuration yields the configuration the state bag holds. -/
theorem reportsNicFailureFor_bind_config {c : Config} {f : Config → Go StepAction}
    (hf : ReportsNicFailureFor env c (f c)) :
    ReportsNicFailureFor env c
      ((stateGet "config" >>= stepCreateServer.assertConfig) >>= f) := by
  constructor
  intro w pre post d l nicR resp err hcfg hw hrun hpre hans
  have hr : (stateGet "config" >>= stepCreateServer.assertConfig).run w = (.ret c, w) := by
    simp [run_bind, hcfg, stepCreateServer.assertConfig]
  rw [run_bind, hr] at hrun ⊢
  exact hf.out w pre post d l nicR resp err hcfg hw hrun hpre hans

end reportsNicFailure

theorem deref_some_bind {α β : Type} (a : α) (f : α → Go β) : (deref (some a) >>= f) = f a :=
  rfl

namespace stepCreateServer

theorem Run_attachNic_reports (env : Env) (c : Config) (datacenter : Datacenter)
    (server : Server) (lan : Lan) (nic : Nic) :
    ReportsNicFailure env nic (Run.attachNic env c datacenter server lan nic) := by
  obtain ⟨dcId, props⟩ := datacenter
  obtain ⟨lanId⟩ := lan
  cases dcId with
  | none =>
    apply reportsNicFailure_of_appends
    unfold Run.attachNic
    constructor
    intro w
    exact ⟨[], by simp [run_bind], by simp⟩
  | some dcId =>
    cases lanId with
    | none =>
      apply reportsNicFailure_of_appends
      unfold Run.attachNic
      constructor
      intro w
      exact ⟨[], by simp [run_bind], by simp⟩
    | some lanId =>
      constructor
      intro w pre post d l nicR resp err hw hrun hpre hans
      have shape : ∃ rest, ((Run.attachNic env c ⟨some dcId, props⟩ server ⟨some lanId⟩ nic).run w).2.calls
          = w.calls ++ Call.DatacentersLansNicsPost dcId lanId :: rest ∧ ∀ call ∈ rest, True := by
        unfold Run.attachNic
        rw [deref_some_bind, deref_some_bind]
        apply issue_bind_calls
        intro a
        repeat' first
          | exact Run_finish_appends env _ _ (fun _ => trivial)
          | exact waitTillProvisioned_appends env _ _ trivial
          | exact parseErrorMessage_appends env _
          | apply appends_bind
          | apply appends_pure
          | apply appends_deref
          | apply appends_uiError
          | intro _
          | dsimp only
          | split
      obtain ⟨rest, hshape, _⟩ := shape
      rw [hshape] at hrun
      obtain ⟨hpre_eq, hcall, _⟩ :=
        first_match_unique (P := fun call => ∃ d l, call = Call.DatacentersLansNicsPost d l)
          hrun ⟨_, _, rfl⟩ ⟨_, _, rfl⟩
          (fun x hx h => by
            obtain ⟨d1, l1, h1⟩ := h
            exact hw x hx d1 l1 h1)
          (fun x hx h => by
            obtain ⟨d1, l1, h1⟩ := h
            exact hpre x hx d1 l1 h1)
      subst hpre_eq
      injection hcall with hd hl
      subst hd hl
      unfold Run.attachNic
      constructor
      · intro e he
        subst he
        simp [run_bind, hans]
      · intro he r0 tmp o rest m hresp hstatus hraw hmsgs hm hwf
        subst he hresp
        obtain ⟨text, ht, hinfix⟩ := parseErrorMessage_envelope env r0.Message m
          { w with calls := w.calls ++ [.DatacentersLansNicsPost dcId lanId] } tmp o rest
          hraw hmsgs hm hwf
        simp only [run_bind, run_deref_some, run_issue, hans, if_pos hstatus, ht, run_uiError,
          run_pure]
        refine ⟨trivial, "Error occurred " ++ text, by simp, ?_⟩
        exact hinfix.trans ⟨"Error occurred ".data, [], by simp [String.data_append]⟩

theorem Run_createLan_reports (env : Env) (c : Config) (datacenter : Datacenter)
    (server : Server) (nic : Nic) :
    ReportsNicFailure env nic (Run.createLan env c datacenter server nic) := by
  unfold Run.createLan
  repeat' first
    | exact Run_attachNic_reports env _ _ _ _ _
    | apply reportsNicFailure_bind
    | exact waitTillProvisioned_appends env _ _ (by simp)
    | exact parseErrorMessage_appends env _
    | exact appends_issue _ _ (by simp)
    | exact appends_deref _
    | exact appends_uiError _
    | exact appends_pure _
    | apply appends_bind
    | intro _
    | dsimp only
    | split
    | apply reportsNicFailure_of_appends

theorem Run_createServer_reports (env : Env) (c : Config) (datacenter : Datacenter)
    (server : Server) (nic : Nic) :
    ReportsNicFailure env nic (Run.createServer env c datacenter server nic) := by
  unfold Run.createServer
  repeat' first
    | exact Run_createLan_reports env _ _ _ _
    | apply reportsNicFailure_bind
    | exact waitTillProvisioned_appends env _ _ (by simp)
    | exact parseErrorMessage_appends env _
    | exact appends_issue _ _ (by simp)
    | exact appends_deref _
    | exact appends_uiError _
    | exact appends_statePut _ _
    | exact appends_pure _
    | apply appends_bind
    | intro _
    | split
    | apply reportsNicFailure_of_appends

theorem Run_createDatacenter_reports (env : Env) (c : Config) (img alias_ : String) :
    ReportsNicFailure env
      { Id := none
        Properties := some { Name := some c.SnapshotName, Dhcp := some true, Ips := none } }
      (Run.createDatacenter env c img alias_) := by
  unfold Run.createDatacenter
  repeat' first
    | exact Run_createServer_reports env _ _ _ _
    | apply reportsNicFailure_bind
    | exact waitTillProvisioned_appends env _ _ (by simp)
    | exact appends_issue _ _ (by simp)
    | exact appends_deref _
    | exact appends_uiError _
    | exact appends_pure _
    | apply appends_bind
    | intro _
    | dsimp only
    | split
    | apply reportsNicFailure_of_appends

end stepCreateServer

/-- C8 (amended): the outcome of `Run` when the NIC attachment call fails. In
every run of `Run` from a state bag holding the configuration `c` in which the
NIC attachment call is issued (first after the calls `pre`) and is answered
there by the response `resp` and the error `err`: if the call returned an
error `e`, `Run` returns Halt and the last line shown to the operator is the
error "Error occurred while attaching a NIC " followed by `e`, whatever the
response's status and message, so it contains every text that `e` contains; if
the call returned no error and a response with a status above 299 whose
message decodes to an envelope whose `messages` list starts with an object
holding the message `m` (every element being an object with string messages),
`Run` returns Halt and the last line shown is an error containing `m`. -/
theorem Run_reports_nic_failure (env : Env) (w : World) (c : Config) (pre post : List Call)
    (d l : String) (nicR : Nic) (resp : Option APIResponse) (err : GoError)
    (hcfg : w.state.lookup "config" = some (.config c))
    (hfresh : ∀ call ∈ w.calls, ∀ d l, call ≠ .DatacentersLansNicsPost d l)
    (hrun : ((stepCreateServer.Run env).run w).2.calls
      = pre ++ Call.DatacentersLansNicsPost d l :: post)
    (hpre : ∀ call ∈ pre, ∀ d l, call ≠ .DatacentersLansNicsPost d l)
    (hans : env.client.DatacentersLansNicsPost pre.length d l
        { Id := none
          Properties := some { Name := some c.SnapshotName, Dhcp := some true, Ips := none } }
      = (nicR, resp, err)) :
    (∀ e, err = some e →
      ((stepCreateServer.Run env).run w).1 = .ret .ActionHalt
        ∧ ((stepCreateServer.Run env).run w).2.ui.getLast?
            = some (.error ("Error occurred while attaching a NIC " ++ e))
        ∧ ∀ m : String, m.data <:+: e.data →
            m.data <:+: ("Error occurred while attaching a NIC " ++ e).data)
    ∧ (err = none → ∀ (r0 : APIResponse) (tmp o : List (String × JsonValue))
        (rest : List JsonValue) (m : String),
      resp = some r0 → r0.StatusCode > 299 →
      env.UnmarshalMap r0.Message = .ok tmp →
      tmp.lookup "messages" = some (.array (.object o :: rest)) →
      ("message", JsonValue.string m) ∈ o →
      (∀ v ∈ JsonValue.object o :: rest, isMessageObject v) →
      ((stepCreateServer.Run env).run w).1 = .ret .ActionHalt
        ∧ ∃ text, ((stepCreateServer.Run env).run w).2.ui.getLast? = some (.error text)
            ∧ m.data <:+: text.data) := by
  have key : ReportsNicFailureFor env c (stepCreateServer.Run env) := by
    unfold stepCreateServer.Run
    repeat' first
      | exact reportsNicFailureFor_of_phase (stepCreateServer.Run_createDatacenter_reports env c _ _)
      | apply reportsNicFailureFor_bind_config
      | apply reportsNicFailureFor_bind
      | exact stepCreateServer.getImageId_appends env _ _ (by simp)
      | exact stepCreateServer.getImageId_keepsState env _ _
      | exact stepCreateServer.getImageAlias_appends env _ _ (by simp)
      | exact stepCreateServer.getImageAlias_keepsState env _ _
      | exact stepCreateServer.assertUi_appends _
      | exact stepCreateServer.assertUi_keepsState _
      | exact appends_stateGet _
      | exact keepsState_stateGet _
      | exact appends_uiSay _
      | exact keepsState_uiSay _
      | exact appends_uiError _
      | exact keepsState_uiError _
      | exact appends_pure _
      | apply appends_bind
      | apply keepsState_bind
      | intro _
      | split
      | apply reportsNicFailureFor_of_appends
  obtain ⟨h1, h2⟩ := key.out w pre post d l nicR resp err hcfg hfresh hrun hpre hans
  refine ⟨fun e he => ?_, h2⟩
  obtain ⟨h3, h4⟩ := h1 e he
  exact ⟨h3, h4, fun m hm =>
    hm.trans ⟨"Error occurred while attaching a NIC ".data, [], by simp [String.data_append]⟩⟩
/-- C8, the claim as stated fails: the NIC attachment call returns an error
together with a 422 response whose message is the quota body, which decodes to
an envelope with the first message "quota exceeded". `Run` returns Halt, and
the error shown to the operator is built from the returned error, not by
`parseErrorMessage`, and does not contain "quota exceeded". -/
theorem Run_nic_error_hides_envelope_message :
    (stepCreateServer.Run (sampleEnv nicErrorClient)).run
        (freshWorld (sampleBag (sampleConfig 0 "ubuntu" "SSD" "de/txl")))
      = (.ret .ActionHalt,
         { state := ("datacenter_id", .stringPtr (some "dc-1"))
                      :: sampleBag (sampleConfig 0 "ubuntu" "SSD" "de/txl")
           calls := [.ImagesGet, .DatacentersPost, .GetRequestStatus "/requests/dc",
                     .DatacentersServersPost "dc-1", .GetRequestStatus "/requests/server",
                     .DatacentersLansPost "dc-1", .GetRequestStatus "/requests/lan",
                     .DatacentersLansNicsPost "dc-1" "1"]
           ui := [.say "Creating Virtual Data Center...",
                  .error "Error occurred while attaching a NIC 422 Unprocessable Entity"] })
    ∧ nicErrorClient.DatacentersLansNicsPost 7 "dc-1" "1"
          { Id := none
            Properties := some { Name := some "packer-snapshot", Dhcp := some true, Ips := none } }
        = ({ Id := none
             Properties := some { Name := some "packer-snapshot", Dhcp := some true, Ips := none } },
           some ⟨422, quotaBody, ""⟩, some "422 Unprocessable Entity")
    ∧ (sampleEnv nicErrorClient).UnmarshalMap quotaBody
        = .ok [("messages", .array [.object [("message", .string "quota exceeded")]])]
    ∧ Contains "Error occurred while attaching a NIC 422 Unprocessable Entity" "quota exceeded"
        = false := by
  refine ⟨by decide, rfl, rfl, by decide⟩

/-- C8 (amended) at the input of the claim, the NIC attachment call being
answered 422 with the body {"messages":[{"message":"quota exceeded"}]}. When
the failure is reported as an error carrying the status line and the body, the
line shown is that error and contains "quota exceeded"; when it is reported as
a response with the body as its message and no error, the line shown is built
by `parseErrorMessage` and contains "quota exceeded". -/
theorem Run_reports_nic_failure_witness :
    (((stepCreateServer.Run (sampleEnv sdkQuotaClient)).run
        (freshWorld (sampleBag (sampleConfig 0 "ubuntu" "SSD" "de/txl")))).1 = .ret .ActionHalt
      ∧ ((stepCreateServer.Run (sampleEnv sdkQuotaClient)).run
          (freshWorld (sampleBag (sampleConfig 0 "ubuntu" "SSD" "de/txl")))).2.ui.getLast?
        = some (.error ("Error occurred while attaching a NIC "
            ++ ("422 Unprocessable Entity: " ++ quotaBody)))
      ∧ "quota exceeded".data
          <:+: ("Error occurred while attaching a NIC "
            ++ ("422 Unprocessable Entity: " ++ quotaBody)).data)
    ∧ (((stepCreateServer.Run (sampleEnv quotaClient)).run
        (freshWorld (sampleBag (sampleConfig 0 "ubuntu" "SSD" "de/txl")))).1 = .ret .ActionHalt
      ∧ ∃ text, ((stepCreateServer.Run (sampleEnv quotaClient)).run
          (freshWorld (sampleBag (sampleConfig 0 "ubuntu" "SSD" "de/txl")))).2.ui.getLast?
        = some (.error text)
      ∧ "quota exceeded".data <:+: text.data) := by
  have hpre : ∀ call ∈ [Call.ImagesGet, .DatacentersPost, .GetRequestStatus "/requests/dc",
      .DatacentersServersPost "dc-1", .GetRequestStatus "/requests/server",
      .DatacentersLansPost "dc-1", .GetRequestStatus "/requests/lan"],
      ∀ d l, call ≠ .DatacentersLansNicsPost d l := by
    simp
  constructor
  · obtain ⟨h1, h2, h3⟩ := (Run_reports_nic_failure (sampleEnv sdkQuotaClient)
      (freshWorld (sampleBag (sampleConfig 0 "ubuntu" "SSD" "de/txl")))
      (sampleConfig 0 "ubuntu" "SSD" "de/txl")
      [.ImagesGet, .DatacentersPost, .GetRequestStatus "/requests/dc",
        .DatacentersServersPost "dc-1", .GetRequestStatus "/requests/server",
        .DatacentersLansPost "dc-1", .GetRequestStatus "/requests/lan"] [] "dc-1" "1"
      { Id := none
        Properties := some { Name := some "packer-snapshot", Dhcp := some true, Ips := none } }
      (some ⟨422, "", ""⟩) (some ("422 Unprocessable Entity: " ++ quotaBody))
      rfl (by simp [freshWorld]) (by decide) hpre rfl).1 _ rfl
    exact ⟨h1, h2, h3 "quota exceeded"
      ⟨"422 Unprocessable Entity: \x7b\"messages\":[\x7b\"message\":\"".data, "\"\x7d]\x7d".data,
        by decide⟩⟩
  · exact (Run_reports_nic_failure (sampleEnv quotaClient)
      (freshWorld (sampleBag (sampleConfig 0 "ubuntu" "SSD" "de/txl")))
      (sampleConfig 0 "ubuntu" "SSD" "de/txl")
      [.ImagesGet, .DatacentersPost, .GetRequestStatus "/requests/dc",
        .DatacentersServersPost "dc-1", .GetRequestStatus "/requests/server",
        .DatacentersLansPost "dc-1", .GetRequestStatus "/requests/lan"] [] "dc-1" "1"
      { Id := none
        Properties := some { Name := some "packer-snapshot", Dhcp := some true, Ips := none } }
      (some ⟨422, quotaBody, ""⟩) none
      rfl (by simp [freshWorld]) (by decide) hpre rfl).2 rfl ⟨422, quotaBody, ""⟩
      [("messages", .array [.object [("message", .string "quota exceeded")]])]
      [("message", .string "quota exceeded")] [] "quota exceeded" rfl (by decide) rfl rfl
      (by simp)
      (by
        intro v hv
        rw [List.mem_singleton] at hv
        subst hv
        intro k v hkv _
        rw [List.mem_singleton] at hkv
        exact ⟨"quota exceeded", (Prod.mk.inj hkv).2⟩)

/-- C10: a run of `stepCreateServer.Run` that returns Continue stores the
identifiers as `*string` values, so the reads `state.Get(key).(string)` of
`stepTakeSnapshot.Run` and the read `dcId.(string)` of `Cleanup` panic on the
state it leaves. -/
theorem stored_identifiers_fail_the_string_assertions :
    (stepCreateServer.Run (sampleEnv healthyClient)).run
        (freshWorld (sampleBag (sampleConfig 0 "ubuntu" "SSD" "de/txl")))
      = (.ret .ActionContinue,
         { state := [("server_ip", .string "192.0.2.10"),
                     ("instance_id", .stringPtr (some "srv-1")),
                     ("volume_id", .stringPtr (some "vol-1")),
                     ("datacenter_id", .stringPtr (some "dc-1"))]
                      ++ sampleBag (sampleConfig 0 "ubuntu" "SSD" "de/txl")
           calls := [.ImagesGet, .DatacentersPost, .GetRequestStatus "/requests/dc",
                     .DatacentersServersPost "dc-1", .GetRequestStatus "/requests/server",
                     .DatacentersLansPost "dc-1", .GetRequestStatus "/requests/lan",
                     .DatacentersLansNicsPost "dc-1" "1", .GetRequestStatus "/requests/nic",
                     .DatacentersServersFindById "dc-1" "srv-1"]
           ui := [.say "Creating Virtual Data Center..."] })
    ∧ ((stepTakeSnapshot.Run (sampleEnv healthyClient)).run
        ((stepCreateServer.Run (sampleEnv healthyClient)).run
          (freshWorld (sampleBag (sampleConfig 0 "ubuntu" "SSD" "de/txl")))).2).1
      = .panic "interface conversion: interface {} is *string, not string"
    ∧ ((stepCreateServer.Cleanup (sampleEnv healthyClient)).run
        ((stepCreateServer.Run (sampleEnv healthyClient)).run
          (freshWorld (sampleBag (sampleConfig 0 "ubuntu" "SSD" "de/txl")))).2).1
      = .panic "interface conversion: interface {} is *string, not string"
    ∧ ((stepCreateServer.Cleanup (sampleEnv healthyClient)).run
        ((stepCreateServer.Run (sampleEnv healthyClient)).run
          (freshWorld (sampleBag (sampleConfig 0 "ubuntu" "SSD" "de/txl")))).2).2.calls
      = ((stepCreateServer.Run (sampleEnv healthyClient)).run
          (freshWorld (sampleBag (sampleConfig 0 "ubuntu" "SSD" "de/txl")))).2.calls := by
  decide

section continuesWith

variable {α : Type} {pre post : StateBag → Prop}

theorem continuesWith_bind {x : Go α} {f : α → Go StepAction} (hk : KeepsState x)
    (hf : ∀ a, ContinuesWith pre post (f a)) : ContinuesWith pre post (x >>= f) := by
  constructor
  intro w hpre hc
  have h1 := hk.out w
  rw [run_bind] at hc ⊢
  rcases hr : x.run w with ⟨_ | _ | _, w1⟩ <;> rw [hr] at h1 hc <;> simp only at h1 hc ⊢
  · rename_i a
    exact (hf a).out w1 (h1 ▸ hpre) hc
  · exact absurd hc (by simp)
  · exact absurd hc (by simp)

theorem continuesWith_put (k : String) (v : Value) {f : Unit → Go StepAction}
    (hf : ContinuesWith (fun s => ∃ s0, s = (k, v) :: s0 ∧ pre s0) post (f ())) :
    ContinuesWith pre post (statePut k v >>= f) := by
  constructor
  intro w hpre hc
  rw [run_bind, run_statePut] at hc ⊢
  exact hf.out _ ⟨w.state, rfl, hpre⟩ hc

theorem continuesWith_halt : ContinuesWith pre post (Pure.pure StepAction.ActionHalt) := by
  constructor
  intro w _ hc
  exact absurd hc (by simp)

theorem continuesWith_continue (h : ∀ s, pre s → post s) :
    ContinuesWith pre post (Pure.pure StepAction.ActionContinue) := by
  constructor
  intro w hpre _
  exact h _ hpre

theorem continuesWith_weaken {pre1 : StateBag → Prop} {x : Go StepAction}
    (h : ∀ s, pre1 s → pre s) (hx : ContinuesWith pre post x) : ContinuesWith pre1 post x := by
  constructor
  intro w hpre hc
  exact hx.out w (h _ hpre) hc

theorem keepsState_index (xs : List α) (i : Nat) : KeepsState (Ionoscloud.index xs i) := by
  unfold Ionoscloud.index
  cases xs.get? i
  · exact ⟨fun _ => rfl⟩
  · exact ⟨fun _ => rfl⟩

end continuesWith

namespace stepCreateServer

theorem parseErrorMessage_inner_keepsState :
    ∀ (fields : List (String × JsonValue)) (toreturn : String),
      KeepsState (parseErrorMessage.inner toreturn fields) := by
  intro fields
  induction fields with
  | nil => intro t; exact keepsState_pure _
  | cons kv rest ih =>
    intro t
    obtain ⟨k, v⟩ := kv
    unfold parseErrorMessage.inner
    repeat' first
      | exact ih _
      | exact keepsState_pure _
      | exact keepsState_goPanic _
      | split

theorem parseErrorMessage_outer_keepsState :
    ∀ (items : List JsonValue) (toreturn : String),
      KeepsState (parseErrorMessage.outer toreturn items) := by
  intro items
  induction items with
  | nil => intro t; exact keepsState_pure _
  | cons v rest ih =>
    intro t
    unfold parseErrorMessage.outer
    repeat' first
      | exact ih _
      | exact parseErrorMessage_inner_keepsState _ _
      | apply keepsState_bind
      | exact keepsState_goPanic _
      | intro _
      | split

theorem parseErrorMessage_keepsState (env : Env) (raw : String) :
    KeepsState (parseErrorMessage env raw) := by
  unfold parseErrorMessage
  repeat' first
    | exact parseErrorMessage_outer_keepsState _ _
    | exact keepsState_pure _
    | exact keepsState_goPanic _
    | split

theorem Run_finish_continuesWith (env : Env) (datacenter : Datacenter) (server : Server) :
    ContinuesWith datacenterIsPointer identifiersArePointers
      (Run.finish env datacenter server) := by
  unfold Run.finish
  repeat' first
    | exact continuesWith_halt
    | apply continuesWith_put
    | apply continuesWith_bind
    | exact keepsState_deref _
    | exact keepsState_index _ _
    | exact keepsState_issue _ _
    | exact keepsState_uiError _
    | intro _
    | split
  apply continuesWith_continue
  rintro s ⟨s2, rfl, s1, rfl, s0, rfl, p, hp⟩
  exact ⟨⟨p, by simpa [List.lookup] using hp⟩, ⟨_, rfl⟩, ⟨_, rfl⟩⟩

end stepCreateServer

/-- Every run of `stepCreateServer.Run` that returns Continue leaves `*string`
values under `datacenter_id`, `volume_id` and `instance_id`. -/
theorem Run_continue_stores_pointers (env : Env) (w : World)
    (hc : ((stepCreateServer.Run env).run w).1 = .ret .ActionContinue) :
    identifiersArePointers ((stepCreateServer.Run env).run w).2.state := by
  have attach : ∀ c datacenter server lan nic,
      ContinuesWith datacenterIsPointer identifiersArePointers
        (stepCreateServer.Run.attachNic env c datacenter server lan nic) := by
    intro c datacenter server lan nic
    unfold stepCreateServer.Run.attachNic
    repeat' first
      | exact stepCreateServer.Run_finish_continuesWith env _ _
      | exact continuesWith_halt
      | apply continuesWith_bind
      | exact stepCreateServer.waitTillProvisioned_keepsState env _ _
      | exact stepCreateServer.parseErrorMessage_keepsState env _
      | exact keepsState_deref _
      | exact keepsState_issue _ _
      | exact keepsState_uiError _
      | intro _
      | split
  have lan : ∀ c datacenter server nic,
      ContinuesWith datacenterIsPointer identifiersArePointers
        (stepCreateServer.Run.createLan env c datacenter server nic) := by
    intro c datacenter server nic
    unfold stepCreateServer.Run.createLan
    repeat' first
      | exact attach _ _ _ _ _
      | exact continuesWith_halt
      | apply continuesWith_bind
      | exact stepCreateServer.waitTillProvisioned_keepsState env _ _
      | exact stepCreateServer.parseErrorMessage_keepsState env _
      | exact keepsState_deref _
      | exact keepsState_issue _ _
      | exact keepsState_uiError _
      | intro _
      | dsimp only
      | split
  have server : ∀ c datacenter server nic,
      ContinuesWith (fun _ => True) identifiersArePointers
        (stepCreateServer.Run.createServer env c datacenter server nic) := by
    intro c datacenter server nic
    unfold stepCreateServer.Run.createServer
    apply continuesWith_put
    refine continuesWith_weaken (fun s hs => (?_ : datacenterIsPointer s)) ?_
    · obtain ⟨s0, rfl, _⟩ := hs
      exact ⟨_, rfl⟩
    · repeat' first
        | exact lan _ _ _ _
        | exact continuesWith_halt
        | apply continuesWith_bind
        | exact stepCreateServer.waitTillProvisioned_keepsState env _ _
        | exact stepCreateServer.parseErrorMessage_keepsState env _
        | exact keepsState_deref _
        | exact keepsState_issue _ _
        | exact keepsState_uiError _
        | intro _
        | split
  have datacenter : ∀ c img alias_,
      ContinuesWith (fun _ => True) identifiersArePointers
        (stepCreateServer.Run.createDatacenter env c img alias_) := by
    intro c img alias_
    unfold stepCreateServer.Run.createDatacenter
    repeat' first
      | exact server _ _ _ _
      | exact continuesWith_halt
      | apply continuesWith_bind
      | exact stepCreateServer.waitTillProvisioned_keepsState env _ _
      | exact keepsState_deref _
      | exact keepsState_issue _ _
      | exact keepsState_uiError _
      | intro _
      | dsimp only
      | split
  have key : ContinuesWith (fun _ => True) identifiersArePointers (stepCreateServer.Run env) := by
    unfold stepCreateServer.Run
    repeat' first
      | exact datacenter _ _ _
      | exact continuesWith_halt
      | apply continuesWith_bind
      | exact stepCreateServer.getImageId_keepsState env _ _
      | exact stepCreateServer.getImageAlias_keepsState env _ _
      | exact stepCreateServer.assertUi_keepsState _
      | exact stepCreateServer.assertConfig_keepsState _
      | exact keepsState_stateGet _
      | exact keepsState_uiSay _
      | exact keepsState_uiError _
      | apply keepsState_bind
      | intro _
      | split
  exact key.out w trivial hc

set_option linter.unnecessarySeqFocus false in
/-- On a state bag whose `datacenter_id` is a `*string`, `stepTakeSnapshot.Run`
and `stepCreateServer.Cleanup` panic, and `Cleanup` issues no call. -/
theorem readers_panic_on_pointer (env : Env) (w : World)
    (hdc : datacenterIsPointer w.state) :
    (∃ r, ((stepTakeSnapshot.Run env).run w).1 = .panic r)
    ∧ (∃ r, ((stepCreateServer.Cleanup env).run w).1 = .panic r)
    ∧ ((stepCreateServer.Cleanup env).run w).2.calls = w.calls := by
  obtain ⟨p, hp⟩ := hdc
  refine ⟨?_, ?_, ?_⟩
  · unfold stepTakeSnapshot.Run
    simp only [run_bind, run_stateGet]
    rcases w.state.lookup "ui" with _ | (_ | _ | _ | _ | _) <;>
      simp only [stepCreateServer.assertUi, run_goPanic, run_pure, exists_eq'] <;>
      rcases w.state.lookup "config" with _ | (_ | _ | _ | _ | _) <;>
      simp [stepCreateServer.assertConfig, run_bind, hp, stepCreateServer.assertString]
  · unfold stepCreateServer.Cleanup
    simp only [run_bind, run_stateGet]
    rcases w.state.lookup "config" with _ | (_ | _ | _ | _ | _) <;>
      simp only [stepCreateServer.assertConfig, run_goPanic, run_pure, exists_eq'] <;>
      rcases w.state.lookup "ui" with _ | (_ | _ | _ | _ | _) <;>
      simp [stepCreateServer.assertUi, run_bind, hp, stepCreateServer.assertString]
  · unfold stepCreateServer.Cleanup
    simp only [run_bind, run_stateGet]
    rcases w.state.lookup "config" with _ | (_ | _ | _ | _ | _) <;>
      simp only [stepCreateServer.assertConfig, run_goPanic, run_pure] <;>
      rcases w.state.lookup "ui" with _ | (_ | _ | _ | _ | _) <;>
      simp [stepCreateServer.assertUi, run_bind, hp, stepCreateServer.assertString]

end Ionoscloud
